import Mathlib

/-!
# dVRK FPGA v3 data collection host: decode, capture loop and handshake

A shallow embedding of `host/lib/code/data_collection.cpp` and
`host/lib/data_collection.h`.

Conventions of the embedding.

* Machine words are natural numbers; a `uint32_t` buffer is a map `Nat → Nat`
  whose values are below `2 ^ 32` (`IsWordBuffer`).  Narrowing casts are
  written as explicit `% 2 ^ w`.
* `double` and `float` fields are kept as their bit patterns: the source
  obtains them by `reinterpret_cast`, never by arithmetic.
* C arrays are maps from the index to the element.  The arrays of
  `ProcessedSample` have the declared capacities `MAX_NUM_ENCODERS` and
  `MAX_NUM_MOTORS`, which are parameters; `process_sample_bounded` checks
  every assignment against them and has no result when one falls outside
  its array.
* `data_collection_shared.h` and `udp_tx.h` are not part of the sources at
  hand.  The constant `UDP_MAX_QUADLET_PER_PACKET` is a parameter of the
  functions that use it, and the fields of `DataCollectionMeta` are natural
  numbers.
* Reads of `data_packet` are recorded in a ghost list of indices so that
  statements about which words were read can be made.
* The transport is a sequence of poll outcomes.  A function that polls takes
  the outcomes of its polls as a list; where the source can wait for ever
  (`init`, `terminate`) the result says whether the function returned or
  used up the outcomes while waiting.
* The `int` counters are unbounded naturals: signed overflow is undefined
  behaviour in the source and is not modelled.
* The worker thread and the controller are composed sequentially (`capture`):
  `start()`, then the worker on the polls it sees, then `stop()`.  A poll
  sequence that is used up stands for the stop request of the controller:
  the worker then sees the two flags that `stop()` writes before it joins.
-/

namespace DataCollection

/-! ## Data model -/

/-- The metadata record `DataCollectionMeta` received once from the peer
(the fields that `data_collection.cpp` uses). -/
structure DataCollectionMeta where
  hwvers : Nat
  num_encoders : Nat
  num_motors : Nat
  data_packet_size : Nat
  size_of_sample : Nat
  samples_per_packet : Nat
  deriving DecidableEq, Repr

/-- The scratch record `ProcessedSample` of `data_collection.h`.  `timestamp`
holds the 64-bit pattern of the `double`, `encoder_velocity` the 32-bit
patterns of the `float`s.  The four arrays are given as maps from the
element index; their declared numbers of elements, `MAX_NUM_ENCODERS` and
`MAX_NUM_MOTORS`, are the capacities of `SampleArray.capacity`, and
`process_sample_bounded` is the decode on arrays of that size.  An element
at or beyond the capacity is no element of the C++ array: what the maps hold
there says nothing about the program. -/
structure ProcessedSample where
  timestamp : Nat
  encoder_position : Nat → Int
  encoder_velocity : Nat → Nat
  motor_current : Nat → Nat
  motor_status : Nat → Nat
  force_torque : Nat → Nat
  digital_io : Nat
  mio_pins : Nat

/-- The result of `memset(&proc_sample, 0, sizeof(proc_sample))`. -/
def ProcessedSample.zero : ProcessedSample :=
  { timestamp := 0
    encoder_position := fun _ => 0
    encoder_velocity := fun _ => 0
    motor_current := fun _ => 0
    motor_status := fun _ => 0
    force_torque := fun _ => 0
    digital_io := 0
    mio_pins := 0 }

/-- The value of `*reinterpret_cast<int32_t *>(&x)` for a 32-bit word `x`
(two's complement). -/
def toInt32 (x : Nat) : Int :=
  if x % 2 ^ 32 < 2 ^ 31 then ((x % 2 ^ 32 : Nat) : Int)
  else ((x % 2 ^ 32 : Nat) : Int) - 2 ^ 32

/-- The running state of `process_sample`: the scratch sample, the local
`idx`, and the ghost list of the indices of `data_packet` read so far. -/
structure Cursor where
  ps : ProcessedSample
  idx : Nat
  reads : List Nat

/-- A counted loop `for (int i = 0; i < n; i++) body`. -/
def forLoop {σ : Type} (n : Nat) (body : Nat → σ → σ) (s : σ) : σ :=
  (List.range n).foldl (fun acc i => body i acc) s

/-- Body of the first loop of `process_sample`:
`proc_sample.encoder_position[i] = *reinterpret_cast<int32_t *>(&data_packet[idx++])`. -/
def encoder_position_body (data_packet : Nat → Nat) (i : Nat) (c : Cursor) : Cursor :=
  { ps := { c.ps with
            encoder_position :=
              Function.update c.ps.encoder_position i (toInt32 (data_packet c.idx)) }
    idx := c.idx + 1
    reads := c.reads ++ [c.idx] }

/-- Body of the second loop of `process_sample`:
`proc_sample.encoder_velocity[i] = *reinterpret_cast<float *>(&data_packet[idx++])`. -/
def encoder_velocity_body (data_packet : Nat → Nat) (i : Nat) (c : Cursor) : Cursor :=
  { ps := { c.ps with
            encoder_velocity :=
              Function.update c.ps.encoder_velocity i (data_packet c.idx % 2 ^ 32) }
    idx := c.idx + 1
    reads := c.reads ++ [c.idx] }

/-- Body of the third loop of `process_sample`: status from the upper half
word, current from the lower half word, then `idx++`. -/
def motor_body (data_packet : Nat → Nat) (i : Nat) (c : Cursor) : Cursor :=
  { ps := { c.ps with
            motor_status :=
              Function.update c.ps.motor_status i
                (((0xFFFF0000 &&& data_packet c.idx) >>> 16) % 2 ^ 16)
            motor_current :=
              Function.update c.ps.motor_current i
                ((0x0000FFFF &&& data_packet c.idx) % 2 ^ 16) }
    idx := c.idx + 1
    reads := c.reads ++ [c.idx, c.idx] }

/-- The two reads of the `if (use_ps_io)` block of `process_sample`. -/
def ps_io_step (data_packet : Nat → Nat) (c : Cursor) : Cursor :=
  { ps := { c.ps with
            digital_io := data_packet c.idx % 2 ^ 32
            mio_pins := data_packet (c.idx + 1) % 2 ^ 32 }
    idx := c.idx + 2
    reads := c.reads ++ [c.idx, c.idx + 1] }

/-- The two timestamp reads of `process_sample` and the assembly of the
64-bit pattern `(timestamp_high << 32) | timestamp_low`. -/
def timestamp_step (data_packet : Nat → Nat) (c : Cursor) : Cursor :=
  let timestamp_high := data_packet c.idx % 2 ^ 64
  let timestamp_low := data_packet (c.idx + 1) % 2 ^ 32
  let raw_64bit_timestamp := ((timestamp_high <<< 32) % 2 ^ 64) ||| timestamp_low
  { ps := { c.ps with timestamp := raw_64bit_timestamp }
    idx := c.idx + 2
    reads := c.reads ++ [c.idx, c.idx + 1] }

/-- The part of `process_sample` after the overrun guard. -/
def decode_sample (dc_meta : DataCollectionMeta) ( use_ps_io : Bool)
    (data_packet : Nat → Nat) (c : Cursor) : Cursor :=
  let c1 := timestamp_step data_packet c
  let c2 := forLoop dc_meta.num_encoders (encoder_position_body data_packet) c1
  let c3 := forLoop dc_meta.num_encoders (encoder_velocity_body data_packet) c2
  let c4 := forLoop dc_meta.num_motors (motor_body data_packet) c3
  if use_ps_io then ps_io_step data_packet c4 else c4

/-- `DataCollection::process_sample(data_packet, start_idx)`.  `maxQuadlets`
is `UDP_MAX_QUADLET_PER_PACKET`.  Returns the new value of `proc_sample`
and the indices of `data_packet` that were read, in order.  The assignments
are not checked against the capacity of the arrays here: this is the result
of the source whenever `num_encoders` and `num_motors` are within the
capacities, and `process_sample_bounded` has the check. -/
def process_sample (maxQuadlets : Nat) (dc_meta : DataCollectionMeta) ( use_ps_io : Bool)
    (data_packet : Nat → Nat) (start_idx : Nat) (proc_sample : ProcessedSample) :
    ProcessedSample × List Nat :=
  if start_idx + dc_meta.size_of_sample > maxQuadlets then
    (proc_sample, [])
  else
    let c := decode_sample dc_meta use_ps_io data_packet
      { ps := proc_sample, idx := start_idx, reads := [] }
    (c.ps, c.reads)

/-- The number of words of `data_packet` that one decoded sample occupies:
two for the timestamp, one per encoder position, one per encoder velocity,
one per motor, and two more when the IO option is on. -/
def sampleWords (dc_meta : DataCollectionMeta) ( use_ps_io : Bool) : Nat :=
  2 + 2 * dc_meta.num_encoders + dc_meta.num_motors + (if use_ps_io then 2 else 0)

/-- The buffer whose first words are the elements of `l` and whose other
words are zero. -/
def bufferOfList (l : List Nat) : Nat → Nat := fun j => l.getD j 0

/-- The wire words of the round-trip scenario:
`tsHigh, tsLow, pos1, vel1, motor1`. -/
def scenarioWords : List Nat := [0x3FF00000, 0x00000000, 5, 0x3F800000, 0x00010002]

/-- The geometry of the round-trip scenario: one encoder, one motor, one
sample of five quadlets in a packet of twenty bytes. -/
def scenarioMeta : DataCollectionMeta :=
  { hwvers := 0x514C4131
    num_encoders := 1
    num_motors := 1
    data_packet_size := 20
    size_of_sample := 5
    samples_per_packet := 1 }

/-! ## Session state -/

/-- The enumeration `DataCollectionStateMachine` of `data_collection.h`. -/
inductive DataCollectionStateMachine where
  | SM_READY
  | SM_SEND_READY_STATE_TO_PS
  | SM_WAIT_FOR_PS_HANDSHAKE
  | SM_SEND_START_DATA_COLLECTIION_CMD_TO_PS
  | SM_START_DATA_COLLECTION
  | SM_RECV_DATA_COLLECTION_META_DATA
  | SM_SEND_METADATA_RECV
  | SM_CLOSE_SOCKET
  | SM_EXIT_DATA_COLLECTION
  | SM_FORCE_TERMINATE
  | SM_EXIT
  deriving DecidableEq, Repr

export DataCollectionStateMachine (SM_READY SM_SEND_READY_STATE_TO_PS SM_WAIT_FOR_PS_HANDSHAKE
  SM_SEND_START_DATA_COLLECTIION_CMD_TO_PS SM_START_DATA_COLLECTION
  SM_RECV_DATA_COLLECTION_META_DATA SM_SEND_METADATA_RECV SM_CLOSE_SOCKET
  SM_EXIT_DATA_COLLECTION SM_FORCE_TERMINATE SM_EXIT)

/-- The command payloads that the host transmits, named after the macros of
`data_collection_shared.h` that the source passes to `udp_transmit`;
`SAMPLE_RATE_VALUE` is the four bytes of `sample_rate` sent after
`HOST_READY_CMD_W_SAMPLE_RATE`. -/
inductive HostCmd where
  | HOST_READY_CMD
  | HOST_READY_CMD_W_PS_IO
  | HOST_READY_CMD_W_SAMPLE_RATE
  | SAMPLE_RATE_VALUE (sample_rate : Int)
  | HOST_RECVD_METADATA
  | HOST_START_DATA_COLLECTION
  | HOST_STOP_DATA_COLLECTION
  | HOST_TERMINATE_SERVER
  deriving DecidableEq, Repr

/-- What happened on the socket `sock_id`, in order (ghost). -/
inductive SockEvent where
  | transmit (cmd : HostCmd)
  | close
  deriving DecidableEq, Repr

/-- The stream `std::ofstream myFile`.  `content` is the text written to the
file opened last.  `opens`, `closes` and `close_calls` are ghost counters: the
files opened, the open files closed, and the calls of `close()`.  The stream
error flags are not modelled. -/
structure OfStream where
  is_open : Bool
  content : String
  opens : Nat
  closes : Nat
  close_calls : Nat
  deriving DecidableEq, Repr

/-- A default-constructed `std::ofstream`. -/
def OfStream.fresh : OfStream :=
  { is_open := false, content := "", opens := 0, closes := 0, close_calls := 0 }

/-- The call `myFile.open(filename)`: opens (and truncates) a file unless the
stream already has one open, in which case the call fails and changes
nothing that is modelled. -/
def OfStream.open (f : OfStream) : OfStream :=
  if f.is_open then f
  else { f with is_open := true, content := "", opens := f.opens + 1 }

/-- The call `myFile.close()`: closes the open file; with no file open the
call fails and closes nothing. -/
def OfStream.close (f : OfStream) : OfStream :=
  if f.is_open then
    { f with is_open := false, closes := f.closes + 1, close_calls := f.close_calls + 1 }
  else { f with close_calls := f.close_calls + 1 }

/-- The insertion `myFile << text`: appended to the open file; lost when no
file is open. -/
def OfStream.put (f : OfStream) (text : String) : OfStream :=
  if f.is_open then { f with content := f.content ++ text } else f

/-- How `operator<<` renders the floating-point fields, given their bit
patterns, at the precision 12 that `process_and_write_data` sets.
Floating-point formatting is not modelled; it is a parameter. -/
structure FloatFormat where
  fmtDouble : Nat → String
  fmtFloat : Nat → String

/-- The ghost record of one iteration of `process_and_write_data`: the start
index handed to `process_sample`, the indices of `data_packet` it read, and
the value of `proc_sample` from which the row was written. -/
structure SampleTrace where
  start_idx : Nat
  reads : List Nat
  decoded : ProcessedSample

/-- The two error reports that the capture loop writes to `std::cerr`:
the capture timeout of `handle_packet_timeout` and the UDP error of
`handle_udp_error` (ghost). -/
inductive CaptureError where
  | captureTimeout
  | udpError
  deriving DecidableEq, Repr

/-- The fields of the class `DataCollection` that the modelled methods use,
with five ghost fields: `sock_events` (what was done on `sock_id`),
`sock_open` (whether `sock_id` is an open descriptor), `dispatched` (the
states that `collect_data` dispatched), `samples` (one record per
iteration of `process_and_write_data`) and `errors` (the error reports of
the capture loop).  The `int` counters are unbounded naturals. -/
structure State where
  proc_sample : ProcessedSample
  dc_meta : DataCollectionMeta
  sm_state : DataCollectionStateMachine
  use_ps_io : Bool
  use_sample_rate : Bool
  stop_data_collection_flag : Bool
  collect_data_ret : Bool
  isDataCollectionRunning : Bool
  data_capture_count : Nat
  udp_data_packets_recvd_count : Nat
  packet_misses_counter : Nat
  myFile : OfStream
  filename : String
  data_packet : Nat → Nat
  sock_open : Bool
  sock_events : List SockEvent
  dispatched : List DataCollectionStateMachine
  samples : List SampleTrace
  errors : List CaptureError

/-! ## Writing the CSV file -/

/-- `DataCollection::write_csv_headers()`. -/
def write_csv_headers (st : State) : State :=
  let f0 := st.myFile.put "TIMESTAMP,"
  let f1 := forLoop st.dc_meta.num_encoders
    (fun k f => (f.put "ENCODER_POS_").put (toString (k + 1)) |>.put ",") f0
  let f2 := forLoop st.dc_meta.num_encoders
    (fun k f => (f.put "ENCODER_VEL_").put (toString (k + 1)) |>.put ",") f1
  let f3 := forLoop st.dc_meta.num_motors
    (fun k f => (f.put "MOTOR_CURRENT_").put (toString (k + 1)) |>.put ",") f2
  let f4 := forLoop st.dc_meta.num_motors
    (fun k f =>
      let g := (f.put "MOTOR_STATUS_").put (toString (k + 1))
      if k + 1 < st.dc_meta.num_motors then g.put "," else g) f3
  let f5 := if st.use_ps_io then f4.put ",DIGITAL_IO,MIO_PINS" else f4
  { st with myFile := f5.put "\n" }

/-- The row that one iteration of `process_and_write_data` writes from
`proc_sample`. -/
def write_row (fmt : FloatFormat) (st : State) : OfStream :=
  let f0 := (st.myFile.put (fmt.fmtDouble st.proc_sample.timestamp)).put ","
  let f1 := forLoop st.dc_meta.num_encoders
    (fun j f => (f.put (toString (st.proc_sample.encoder_position j))).put ",") f0
  let f2 := forLoop st.dc_meta.num_encoders
    (fun j f => (f.put (fmt.fmtFloat (st.proc_sample.encoder_velocity j))).put ",") f1
  let f3 := forLoop st.dc_meta.num_motors
    (fun j f => (f.put (toString (st.proc_sample.motor_current j))).put ",") f2
  let f4 := forLoop st.dc_meta.num_motors
    (fun j f =>
      let g := f.put (toString (st.proc_sample.motor_status j % 2 ^ 16))
      if j < st.dc_meta.num_motors - 1 then g.put "," else g) f3
  let f5 :=
    if st.use_ps_io then
      (((f4.put ",").put (toString st.proc_sample.digital_io)).put ",").put
        (toString st.proc_sample.mio_pins)
    else f4
  f5.put "\n"

/-- One iteration of the loop of `process_and_write_data` at start index
`i`: decode, write the row, zero the scratch. -/
def process_and_write_body (maxQuadlets : Nat) (fmt : FloatFormat) (i : Nat) (st : State) :
    State :=
  let r := process_sample maxQuadlets st.dc_meta st.use_ps_io st.data_packet i st.proc_sample
  let st1 := { st with proc_sample := r.1 }
  { st1 with
    myFile := write_row fmt st1
    proc_sample := ProcessedSample.zero
    samples := st.samples ++ [{ start_idx := i, reads := r.2, decoded := r.1 }] }

/-- The loop `for (int i = 0; i < data_packet_size / 4; i += size_of_sample)`
of `process_and_write_data`, from the index `i`; `none` when `fuel`
iterations did not end it. -/
def process_and_write_loop (maxQuadlets : Nat) (fmt : FloatFormat) :
    Nat → Nat → State → Option State
  | 0, _, _ => none
  | fuel + 1, i, st =>
    if i < st.dc_meta.data_packet_size / 4 then
      process_and_write_loop maxQuadlets fmt fuel (i + st.dc_meta.size_of_sample)
        (process_and_write_body maxQuadlets fmt i st)
    else some st

/-- `DataCollection::process_and_write_data()`; `none` when the loop did not
end within `fuel` iterations. -/
def process_and_write_data (maxQuadlets : Nat) (fmt : FloatFormat) (fuel : Nat) (st : State) :
    Option State :=
  process_and_write_loop maxQuadlets fmt fuel 0 st

/-- A session state for evaluating the decode and capture functions on
concrete data: geometry `m`, IO option `io`, packet buffer `w`, no file open,
socket open, every counter zero. -/
def exampleState (m : DataCollectionMeta) (io : Bool) (w : Nat → Nat) : State :=
  { proc_sample := ProcessedSample.zero
    dc_meta := m
    sm_state := SM_READY
    use_ps_io := io
    use_sample_rate := false
    stop_data_collection_flag := false
    collect_data_ret := false
    isDataCollectionRunning := false
    data_capture_count := 1
    udp_data_packets_recvd_count := 0
    packet_misses_counter := 0
    myFile := OfStream.fresh
    filename := ""
    data_packet := w
    sock_open := true
    sock_events := []
    dispatched := []
    samples := []
    errors := [] }

/-- The characters of the first line of a text (up to the first newline). -/
def firstLine (text : String) : List Char :=
  text.data.takeWhile (fun c => c != '\n')

/-- A line split at its commas: the list of its columns. -/
def splitAtCommas : List Char → List String
  | [] => [""]
  | c :: cs =>
    match splitAtCommas cs with
    | [] => [""]
    | col :: cols =>
      if c = ',' then "" :: col :: cols else String.mk (c :: col.data) :: cols

/-- The column list of the CSV header as the specification gives it:
`TIMESTAMP`, `ENCODER_POS_1..N`, `ENCODER_VEL_1..N`, `MOTOR_CURRENT_1..M`,
`MOTOR_STATUS_1..M`, then `DIGITAL_IO`, `MIO_PINS` when IO is on. -/
def specHeaderColumns (numEncoders numMotors : Nat) (io : Bool) : List String :=
  ["TIMESTAMP"] ++
  (List.range numEncoders).map (fun k => "ENCODER_POS_" ++ toString (k + 1)) ++
  (List.range numEncoders).map (fun k => "ENCODER_VEL_" ++ toString (k + 1)) ++
  (List.range numMotors).map (fun k => "MOTOR_CURRENT_" ++ toString (k + 1)) ++
  (List.range numMotors).map (fun k => "MOTOR_STATUS_" ++ toString (k + 1)) ++
  (if io then ["DIGITAL_IO", "MIO_PINS"] else [])

/-- A state whose output file has just been opened, with `numEncoders`
encoders and `numMotors` motors. -/
def headerState (numEncoders numMotors : Nat) (io : Bool) : State :=
  { exampleState { scenarioMeta with num_encoders := numEncoders, num_motors := numMotors }
      io (fun _ => 0) with myFile := OfStream.fresh.open }

/-! ## Transport -/

/-- Modelled from the spec: `udp_tx.h`, which declares
`udp_nonblocking_receive` and its return codes, is not among the sources.
The outcomes of one poll are those of the transport contract: a positive
byte count (with the payload bytes that were received), or one of the five
named codes, none of which is positive. -/
inductive UdpRecv where
  | data (payload : List Nat)
  | UDP_DATA_IS_NOT_AVAILABLE_WITHIN_TIMEOUT
  | UDP_NON_UDP_DATA_IS_AVAILABLE
  | UDP_SELECT_ERROR
  | UDP_SOCKET_ERROR
  | UDP_CONNECTION_CLOSED_ERROR
  deriving DecidableEq, Repr

/-- The bytes of a buffer after a receive of at most `len` bytes stored the
payload at its start. -/
def storeBytes (buf : List Nat) (len : Nat) (payload : List Nat) : List Nat :=
  payload.take len ++ buf.drop (payload.take len).length

/-- The C string held in a byte buffer: the bytes before the first NUL. -/
def cstr (buf : List Nat) : List Nat := buf.takeWhile (fun b => b != 0)

/-- The bytes of a C string literal, without the terminating NUL. -/
def literalBytes (text : String) : List Nat := text.data.map Char.toNat

/-- The test `strcmp(buf, literal) == 0`. -/
def strcmp_eq (buf : List Nat) (literal : List Nat) : Bool := cstr buf == cstr literal

/-- The literal that `init` compares the peer's readiness message with. -/
def ZYNQ_READY_LITERAL : List Nat := literalBytes "ZYNQ: READY FOR DATA COLLECTION"

/-- The call `udp_transmit(sock_id, cmd, sizeof(cmd))`, recorded in the ghost list. -/
def State.transmit (st : State) (cmd : HostCmd) : State :=
  { st with sock_events := st.sock_events ++ [SockEvent.transmit cmd] }

/-- The call `close(sock_id)`. -/
def State.closeSocket (st : State) : State :=
  { st with sock_open := false, sock_events := st.sock_events ++ [SockEvent.close] }

/-- The number of `close(sock_id)` calls recorded. -/
def closeCount (events : List SockEvent) : Nat := events.count SockEvent.close

/-! ## Handshake: `init` -/

/-- The constant `QLA1_String` of `data_collection.h`. -/
def QLA1_String : Nat := 0x514C4131

/-- The constant `dRA1_String` of `data_collection.h`. -/
def dRA1_String : Nat := 0x64524131

/-- The constant `DQLA_String` of `data_collection.h`. -/
def DQLA_String : Nat := 0x44514C41

/-- The test of `init` on the received hardware version. -/
def acceptedHwvers (hwvers : Nat) : Bool :=
  hwvers == dRA1_String || hwvers == QLA1_String || hwvers == DQLA_String

/-- Where the loop of `init` (or of `terminate`) stands: still `running` with
the session state, the local `recvBuffer` and the poll outcomes not yet
consumed; `returned` with the return value; or `blocked` in
`udp_nonblocking_receive` because the sequence of poll outcomes is used up. -/
inductive LoopStatus where
  | running (st : State) (recvBuffer : List Nat) (polls : List UdpRecv)
  | returned (ret : Bool) (st : State)
  | blocked (st : State)

/-- The three `if` statements of the state `SM_SEND_READY_STATE_TO_PS` of
`init`. -/
def send_ready (sample_rate : Int) (st : State) : State :=
  let st1 := if !st.use_ps_io && !st.use_sample_rate then
    st.transmit HostCmd.HOST_READY_CMD else st
  let st2 := if st1.use_ps_io then st1.transmit HostCmd.HOST_READY_CMD_W_PS_IO else st1
  if st2.use_sample_rate then
    (st2.transmit HostCmd.HOST_READY_CMD_W_SAMPLE_RATE).transmit
      (HostCmd.SAMPLE_RATE_VALUE sample_rate)
  else st2

/-- The outcomes on which the receive states of `init` poll again:
`UDP_DATA_IS_NOT_AVAILABLE_WITHIN_TIMEOUT` and `UDP_NON_UDP_DATA_IS_AVAILABLE`. -/
def UdpRecv.isRetry : UdpRecv → Bool
  | UdpRecv.UDP_DATA_IS_NOT_AVAILABLE_WITHIN_TIMEOUT => true
  | UdpRecv.UDP_NON_UDP_DATA_IS_AVAILABLE => true
  | _ => false

/-- The hard transport errors: `UDP_SELECT_ERROR`, `UDP_SOCKET_ERROR` and
`UDP_CONNECTION_CLOSED_ERROR`. -/
def UdpRecv.isHardError : UdpRecv → Bool
  | UdpRecv.UDP_SELECT_ERROR => true
  | UdpRecv.UDP_SOCKET_ERROR => true
  | UdpRecv.UDP_CONNECTION_CLOSED_ERROR => true
  | _ => false

/-- The transmissions that the state `SM_SEND_READY_STATE_TO_PS` can make. -/
def readyCommands (sample_rate : Int) : List SockEvent :=
  [SockEvent.transmit HostCmd.HOST_READY_CMD,
   SockEvent.transmit HostCmd.HOST_READY_CMD_W_PS_IO,
   SockEvent.transmit HostCmd.HOST_READY_CMD_W_SAMPLE_RATE,
   SockEvent.transmit (HostCmd.SAMPLE_RATE_VALUE sample_rate)]

/-- One iteration of the `while (1) switch (sm_state)` loop of `init`.
`storeMeta payload old` is `dc_meta` after the payload bytes were received
into it (the layout of `DataCollectionMeta` is declared in
`data_collection_shared.h`). -/
def init_step (storeMeta : List Nat → DataCollectionMeta → DataCollectionMeta)
    (sample_rate : Int) (st : State) (recvBuffer : List Nat) (polls : List UdpRecv) :
    LoopStatus :=
  match st.sm_state with
  | SM_SEND_READY_STATE_TO_PS =>
    .running { send_ready sample_rate st with
      sm_state := SM_RECV_DATA_COLLECTION_META_DATA } recvBuffer polls
  | SM_RECV_DATA_COLLECTION_META_DATA =>
    match polls with
    | [] => .blocked st
    | UdpRecv.data payload :: rest =>
      let st1 := { st with dc_meta := storeMeta payload st.dc_meta }
      if acceptedHwvers st1.dc_meta.hwvers then
        .running { st1 with sm_state := SM_SEND_METADATA_RECV } recvBuffer rest
      else
        .running { st1 with sm_state := SM_CLOSE_SOCKET } recvBuffer rest
    | UdpRecv.UDP_DATA_IS_NOT_AVAILABLE_WITHIN_TIMEOUT :: rest
    | UdpRecv.UDP_NON_UDP_DATA_IS_AVAILABLE :: rest =>
      .running { st with sm_state := SM_RECV_DATA_COLLECTION_META_DATA } recvBuffer rest
    | _ :: rest =>
      .running { st with sm_state := SM_CLOSE_SOCKET } recvBuffer rest
  | SM_SEND_METADATA_RECV =>
    .running { st.transmit HostCmd.HOST_RECVD_METADATA with
      sm_state := SM_WAIT_FOR_PS_HANDSHAKE } recvBuffer polls
  | SM_WAIT_FOR_PS_HANDSHAKE =>
    match polls with
    | [] => .blocked st
    | UdpRecv.data payload :: rest =>
      let recvBuffer1 := storeBytes recvBuffer 100 payload
      if strcmp_eq recvBuffer1 ZYNQ_READY_LITERAL then
        .returned true { st with sm_state := SM_SEND_START_DATA_COLLECTIION_CMD_TO_PS }
      else
        .running { st with sm_state := SM_CLOSE_SOCKET } recvBuffer1 rest
    | UdpRecv.UDP_DATA_IS_NOT_AVAILABLE_WITHIN_TIMEOUT :: rest
    | UdpRecv.UDP_NON_UDP_DATA_IS_AVAILABLE :: rest =>
      .running { st with sm_state := SM_WAIT_FOR_PS_HANDSHAKE } recvBuffer rest
    | _ :: rest =>
      .running { st with sm_state := SM_CLOSE_SOCKET } recvBuffer rest
  | SM_CLOSE_SOCKET => .returned false st.closeSocket
  | _ => .running st recvBuffer polls

/-- At most `fuel` iterations of the loop of `init`. -/
def init_loop (storeMeta : List Nat → DataCollectionMeta → DataCollectionMeta)
    (sample_rate : Int) : Nat → State → List Nat → List UdpRecv → LoopStatus
  | 0, st, recvBuffer, polls => .running st recvBuffer polls
  | fuel + 1, st, recvBuffer, polls =>
    match init_step storeMeta sample_rate st recvBuffer polls with
    | .running st1 recvBuffer1 polls1 => init_loop storeMeta sample_rate fuel st1 recvBuffer1 polls1
    | .returned ret st1 => .returned ret st1
    | .blocked st1 => .blocked st1

/-- The state in which `init` enters its loop, after `udp_init` succeeded. -/
def init_entry ( usePSIO useSampleRate : Bool) (st : State) : State :=
  let st1 := { st with sock_open := true }
  let st2 := if useSampleRate then { st1 with use_sample_rate := true } else st1
  let st3 := { st2 with sm_state := SM_SEND_READY_STATE_TO_PS }
  { st3 with use_ps_io := usePSIO }

/-- `DataCollection::init(boardID, usePSIO, useSampleRate, sample_rate)` on a
sequence of poll outcomes.  `udp_init_ok` is the result of `udp_init`.  Every
iteration of the loop either consumes a poll outcome or is one of the three
that do not poll, so `polls.length + 4` iterations end the loop or use up
the outcomes. -/
def init (storeMeta : List Nat → DataCollectionMeta → DataCollectionMeta)
    (udp_init_ok usePSIO useSampleRate : Bool) (sample_rate : Int) (st : State)
    (polls : List UdpRecv) : LoopStatus :=
  if !udp_init_ok then .returned false st
  else
    init_loop storeMeta sample_rate (polls.length + 4) (init_entry usePSIO useSampleRate st)
      (List.replicate 100 0) polls

/-- A bound on the iterations that the loop of `init` still makes from a
state, with `n` poll outcomes left: each iteration consumes an outcome, or
is one of `SM_SEND_READY_STATE_TO_PS`, `SM_SEND_METADATA_RECV`,
`SM_CLOSE_SOCKET`, or finds the outcomes used up.  The states that the
`switch` of `init` has no case for get no bound. -/
def initBudget : DataCollectionStateMachine → Nat → Option Nat
  | SM_SEND_READY_STATE_TO_PS, n => some (n + 4)
  | SM_RECV_DATA_COLLECTION_META_DATA, n => some (n + 3)
  | SM_SEND_METADATA_RECV, n => some (n + 2)
  | SM_WAIT_FOR_PS_HANDSHAKE, n => some (n + 1)
  | SM_CLOSE_SOCKET, _ => some 1
  | _, _ => none

/-- A layout of `DataCollectionMeta` for evaluated examples: the payload
lists the six fields in the order of the record, one element per field. -/
def fieldLayout (payload : List Nat) (old : DataCollectionMeta) : DataCollectionMeta :=
  { hwvers := payload.getD 0 old.hwvers
    num_encoders := payload.getD 1 old.num_encoders
    num_motors := payload.getD 2 old.num_motors
    data_packet_size := payload.getD 3 old.data_packet_size
    size_of_sample := payload.getD 4 old.size_of_sample
    samples_per_packet := payload.getD 5 old.samples_per_packet }

/-- A metadata payload (in `fieldLayout`) with the hardware version
`0x12345678`, which is none of the three accepted ones. -/
def unknownHardwarePayload : List Nat := [0x12345678, 1, 1, 20, 5, 1]

/-- A metadata payload (in `fieldLayout`) with the hardware version `QLA1`. -/
def qla1Payload : List Nat := [0x514C4131, 1, 1, 20, 5, 1]

/-- A session state standing in `SM_WAIT_FOR_PS_HANDSHAKE`, as after the
metadata acknowledgement. -/
def waitingState : State :=
  { exampleState scenarioMeta false (fun _ => 0) with
    sm_state := SM_WAIT_FOR_PS_HANDSHAKE
    sock_events := [SockEvent.transmit HostCmd.HOST_READY_CMD,
      SockEvent.transmit HostCmd.HOST_RECVD_METADATA] }

/-! ## The capture loop -/

/-- `DataCollection::handle_packet_timeout()`. -/
def handle_packet_timeout (st : State) : State :=
  let st1 := { st with packet_misses_counter := st.packet_misses_counter + 1 }
  if st1.packet_misses_counter ≥ 100000 ∧ st1.udp_data_packets_recvd_count ≠ 0 then
    { st1 with
      errors := st1.errors ++ [CaptureError.captureTimeout]
      sm_state := SM_CLOSE_SOCKET
      stop_data_collection_flag := true }
  else st1

/-- `DataCollection::handle_udp_error(ret_code)`. -/
def handle_udp_error (st : State) : State :=
  { st with errors := st.errors ++ [CaptureError.udpError], sm_state := SM_CLOSE_SOCKET }

/-- `DataCollection::handle_socket_closure()`. -/
def handle_socket_closure (st : State) : State :=
  { st with isDataCollectionRunning := false }

/-- How one iteration of the loop of `handle_data_collection` ends: back at
the loop head (`looping`), by a `break` (`left`), or not at all because
`process_and_write_data` does not return (`hung`, with the state in which it
was entered). -/
inductive PollStatus where
  | looping (st : State)
  | left (st : State)
  | hung (st : State)

/-- The body of the loop of `handle_data_collection` for one poll outcome.
`storePacket len payload old` is `data_packet` after at most `len` payload
bytes were received into it.  `process_and_write_data` is given
`data_packet_size / 4 + 1` iterations, which end its loop whenever
`size_of_sample` is not zero. -/
def capture_poll (maxQuadlets : Nat) (fmt : FloatFormat)
    (storePacket : Nat → List Nat → (Nat → Nat) → (Nat → Nat)) (st : State) (r : UdpRecv) :
    PollStatus :=
  match r with
  | UdpRecv.data payload =>
    let st1 := { st with
      data_packet := storePacket st.dc_meta.data_packet_size payload st.data_packet }
    let st2 := { st1 with udp_data_packets_recvd_count := st1.udp_data_packets_recvd_count + 1 }
    let st3 := { st2 with packet_misses_counter := 0 }
    match process_and_write_data maxQuadlets fmt (st3.dc_meta.data_packet_size / 4 + 1) st3 with
    | some st4 => .looping st4
    | none => .hung st3
  | UdpRecv.UDP_DATA_IS_NOT_AVAILABLE_WITHIN_TIMEOUT =>
    let st1 := handle_packet_timeout st
    if st1.stop_data_collection_flag then .left st1 else .looping st1
  | _ =>
    .left { handle_udp_error st with stop_data_collection_flag := true }

/-- How a run of the capture code ends: it returns (`done`), or it hangs in
`process_and_write_data` (`hung`), or the bound on the iterations of the
dispatch loop of `collect_data` was reached (`unfinished`). -/
inductive Run where
  | done (st : State)
  | hung (st : State)
  | unfinished (st : State)

/-- The loop `while (!stop_data_collection_flag)` of `handle_data_collection`
on a sequence of poll outcomes.  The sequence lists the polls made before the
controller asked for the stop: when it is used up, `stop()` has written
`isDataCollectionRunning = false` and then `stop_data_collection_flag = true`,
and the loop head leaves the loop. -/
def capture_loop (maxQuadlets : Nat) (fmt : FloatFormat)
    (storePacket : Nat → List Nat → (Nat → Nat) → (Nat → Nat)) :
    State → List UdpRecv → Run
  | st, [] =>
    .done { st with isDataCollectionRunning := false, stop_data_collection_flag := true }
  | st, r :: rest =>
    if st.stop_data_collection_flag then .done st
    else
      match capture_poll maxQuadlets fmt storePacket st r with
      | .looping st1 => capture_loop maxQuadlets fmt storePacket st1 rest
      | .left st1 => .done st1
      | .hung st1 => .hung st1

/-- The state in which `handle_data_collection` enters its loop: counters
zeroed, file opened, header written.  `filename` is the result of
`return_filename()`. -/
def capture_entry (filename : String) (st : State) : State :=
  write_csv_headers
    { st with
      udp_data_packets_recvd_count := 0
      packet_misses_counter := 0
      filename := filename
      myFile := st.myFile.open }

/-- `DataCollection::handle_data_collection()`. -/
def handle_data_collection (maxQuadlets : Nat) (fmt : FloatFormat)
    (storePacket : Nat → List Nat → (Nat → Nat) → (Nat → Nat)) (filename : String)
    (st : State) (polls : List UdpRecv) : Run :=
  match capture_loop maxQuadlets fmt storePacket (capture_entry filename st) polls with
  | .done st1 => .done { st1 with myFile := st1.myFile.close }
  | .hung st1 => .hung st1
  | .unfinished st1 => .unfinished st1

/-- The loop `while (sm_state != SM_EXIT) switch (sm_state)` of
`collect_data`, at most `fuel` tests of the loop condition.  Every dispatched
state is appended to the ghost list `dispatched`. -/
def collect_data_loop (maxQuadlets : Nat) (fmt : FloatFormat)
    (storePacket : Nat → List Nat → (Nat → Nat) → (Nat → Nat)) (filename : String) :
    Nat → State → List UdpRecv → Run
  | 0, st, _ => .unfinished st
  | fuel + 1, st, polls =>
    if st.sm_state = SM_EXIT then .done st
    else
      let st0 := { st with dispatched := st.dispatched ++ [st.sm_state] }
      match st.sm_state with
      | SM_SEND_START_DATA_COLLECTIION_CMD_TO_PS =>
        collect_data_loop maxQuadlets fmt storePacket filename fuel
          { st0.transmit HostCmd.HOST_START_DATA_COLLECTION with
            sm_state := SM_START_DATA_COLLECTION } polls
      | SM_START_DATA_COLLECTION =>
        match handle_data_collection maxQuadlets fmt storePacket filename st0 polls with
        | .done st1 =>
          collect_data_loop maxQuadlets fmt storePacket filename fuel
            { st1 with sm_state := SM_EXIT } []
        | .hung st1 => .hung st1
        | .unfinished st1 => .unfinished st1
      | SM_CLOSE_SOCKET =>
        collect_data_loop maxQuadlets fmt storePacket filename fuel
          { handle_socket_closure st0 with sm_state := SM_EXIT } polls
      | _ =>
        collect_data_loop maxQuadlets fmt storePacket filename fuel
          { st0 with sm_state := SM_EXIT } polls

/-- `DataCollection::collect_data()`, the body of the worker thread.  From
`SM_SEND_START_DATA_COLLECTIION_CMD_TO_PS` the loop condition is tested at
most three times. -/
def collect_data (maxQuadlets : Nat) (fmt : FloatFormat)
    (storePacket : Nat → List Nat → (Nat → Nat) → (Nat → Nat)) (filename : String)
    (st : State) (polls : List UdpRecv) : Run :=
  if st.isDataCollectionRunning then .done { st with collect_data_ret := false }
  else
    collect_data_loop maxQuadlets fmt storePacket filename 3
      { st with
        isDataCollectionRunning := true
        stop_data_collection_flag := false
        sm_state := SM_SEND_START_DATA_COLLECTIION_CMD_TO_PS } polls

/-- The conversion of an `int` to `bool` at a `return` of a function that
returns `bool`: zero gives `false`, every other value `true`. -/
def intToBool (n : Int) : Bool := n != 0

/-- `DataCollection::start()`: the return value and the state.
`pthread_ok` tells whether `pthread_create` succeeded; `drained` lists the
payloads that the loop `while (udp_nonblocking_receive(...) > 0) {}` received
into `data_packet`.  The worker itself is run by `capture`.  The failure
branch is the statement `return 1;`. -/
def start (storePacket : Nat → List Nat → (Nat → Nat) → (Nat → Nat)) (pthread_ok : Bool)
    (drained : List (List Nat)) (st : State) : Bool × State :=
  if !pthread_ok then (intToBool 1, st)
  else
    (true, drained.foldl
      (fun acc payload =>
        { acc with
          data_packet := storePacket acc.dc_meta.data_packet_size payload acc.data_packet })
      st)

/-- One iteration of the loop `while (1)` of `terminate`.
`terminationLiteral` holds the bytes of the macro
`ZYNQ_TERMINATATION_SUCCESSFUL` of `data_collection_shared.h`.  Leaving the
loop by `break` runs `close(sock_id)` and returns `true`. -/
def terminate_step (terminationLiteral : List Nat) (st : State) (recvBuffer : List Nat)
    (polls : List UdpRecv) : LoopStatus :=
  match polls with
  | [] => .blocked st
  | UdpRecv.data payload :: _ =>
    let recvBuffer1 := storeBytes recvBuffer 31 payload
    if strcmp_eq recvBuffer1 terminationLiteral then
      .returned true st.closeSocket
    else
      .returned false st
  | UdpRecv.UDP_SELECT_ERROR :: _ => .returned false st
  | UdpRecv.UDP_SOCKET_ERROR :: _ => .returned false st
  | UdpRecv.UDP_CONNECTION_CLOSED_ERROR :: _ => .returned false st
  | _ :: rest => .running st recvBuffer rest

/-- The loop of `terminate` on a sequence of poll outcomes. -/
def terminate_loop (terminationLiteral : List Nat) (st : State) (recvBuffer : List Nat) :
    List UdpRecv → LoopStatus
  | [] => .blocked st
  | r :: rest =>
    match terminate_step terminationLiteral st recvBuffer (r :: rest) with
    | .running st1 recvBuffer1 _ => terminate_loop terminationLiteral st1 recvBuffer1 rest
    | .returned ret st1 => .returned ret st1
    | .blocked st1 => .blocked st1

/-- `DataCollection::terminate()` on a sequence of poll outcomes. -/
def terminate (terminationLiteral : List Nat) (st : State) (polls : List UdpRecv) :
    LoopStatus :=
  terminate_loop terminationLiteral (st.transmit HostCmd.HOST_TERMINATE_SERVER)
    (List.replicate 100 0) polls

/-- An example value for the macro `ZYNQ_TERMINATATION_SUCCESSFUL`, whose
text is in `data_collection_shared.h`. -/
def terminationExample : List Nat := literalBytes "ZYNQ: TERMINATION SUCCESSFUL"

/-- The characters that `write_csv_headers` appends to an open file, loop by
loop. -/
def headerChars (numEncoders numMotors : Nat) (io : Bool) : List Char :=
  "TIMESTAMP,".data ++
  (List.range numEncoders).flatMap
    (fun k => "ENCODER_POS_".data ++ (toString (k + 1)).data ++ [',']) ++
  (List.range numEncoders).flatMap
    (fun k => "ENCODER_VEL_".data ++ (toString (k + 1)).data ++ [',']) ++
  (List.range numMotors).flatMap
    (fun k => "MOTOR_CURRENT_".data ++ (toString (k + 1)).data ++ [',']) ++
  (List.range numMotors).flatMap
    (fun k => "MOTOR_STATUS_".data ++ (toString (k + 1)).data ++
      (if k + 1 < numMotors then [','] else [])) ++
  (if io then ",DIGITAL_IO,MIO_PINS".data else []) ++
  ['\n']

/-! ## The arrays of `ProcessedSample` -/

/-- The four arrays of `ProcessedSample` that `process_sample` assigns. -/
inductive SampleArray where
  | encoder_position
  | encoder_velocity
  | motor_current
  | motor_status
  deriving DecidableEq, Repr

/-- The number of elements of an array of `ProcessedSample`, as declared in
`data_collection.h`: `MAX_NUM_ENCODERS` for the encoder arrays,
`MAX_NUM_MOTORS` for the motor arrays.  The two macros are defined in
`data_collection_shared.h`; their values are parameters. -/
def SampleArray.capacity (maxNumEncoders maxNumMotors : Nat) : SampleArray → Nat
  | .encoder_position => maxNumEncoders
  | .encoder_velocity => maxNumEncoders
  | .motor_current => maxNumMotors
  | .motor_status => maxNumMotors

/-- The array elements that `process_sample` assigns, in the order of the
source: none when the overrun guard returns; otherwise
`encoder_position[i]` for `i < num_encoders`, then `encoder_velocity[i]` for
`i < num_encoders`, then `motor_status[i]` and `motor_current[i]` for
`i < num_motors` (ghost). -/
def process_sample_writes (maxQuadlets : Nat) (dc_meta : DataCollectionMeta)
    (start_idx : Nat) : List (SampleArray × Nat) :=
  if start_idx + dc_meta.size_of_sample > maxQuadlets then []
  else
    (List.range dc_meta.num_encoders).map (fun i => (SampleArray.encoder_position, i)) ++
    (List.range dc_meta.num_encoders).map (fun i => (SampleArray.encoder_velocity, i)) ++
    (List.range dc_meta.num_motors).flatMap
      (fun i => [(SampleArray.motor_status, i), (SampleArray.motor_current, i)])

/-- The readiness message as the peer sends it: the literal with its
terminating NUL. -/
def readyPayload : List Nat := literalBytes "ZYNQ: READY FOR DATA COLLECTION" ++ [0]

/-- A metadata payload (in `fieldLayout`) with the hardware version `QLA1`
and the given numbers of encoders and motors. -/
def countsPayload (numEncoders numMotors : Nat) : List Nat :=
  [0x514C4131, numEncoders, numMotors, 40, 5, 2]

/-- Whether a socket event is the transmission of one of the three ready
commands `HOST_READY_CMD`, `HOST_READY_CMD_W_PS_IO`,
`HOST_READY_CMD_W_SAMPLE_RATE`. -/
def SockEvent.isReadyVariant : SockEvent → Bool
  | SockEvent.transmit HostCmd.HOST_READY_CMD => true
  | SockEvent.transmit HostCmd.HOST_READY_CMD_W_PS_IO => true
  | SockEvent.transmit HostCmd.HOST_READY_CMD_W_SAMPLE_RATE => true
  | _ => false

/-- The number of ready commands among the recorded socket events. -/
def readyVariantCount (events : List SockEvent) : Nat :=
  events.countP SockEvent.isReadyVariant

/-- What the state `SM_SEND_READY_STATE_TO_PS` transmits, by the option
`use_ps_io` and the flag `use_sample_rate` in effect. -/
def readyTransmissions (sample_rate : Int) : Bool → Bool → List SockEvent
  | false, false => [SockEvent.transmit HostCmd.HOST_READY_CMD]
  | true, false => [SockEvent.transmit HostCmd.HOST_READY_CMD_W_PS_IO]
  | false, true => [SockEvent.transmit HostCmd.HOST_READY_CMD_W_SAMPLE_RATE,
      SockEvent.transmit (HostCmd.SAMPLE_RATE_VALUE sample_rate)]
  | true, true => [SockEvent.transmit HostCmd.HOST_READY_CMD_W_PS_IO,
      SockEvent.transmit HostCmd.HOST_READY_CMD_W_SAMPLE_RATE,
      SockEvent.transmit (HostCmd.SAMPLE_RATE_VALUE sample_rate)]

/-! ## The lines of the CSV file -/

/-- A payload that starts with the readiness string and its NUL and goes on
with four more bytes. -/
def readyWithTrailingBytes : List Nat :=
  literalBytes "ZYNQ: READY FOR DATA COLLECTION" ++ [0] ++ literalBytes "JUNK"

/-- The state in which the worker of a further capture calls
`handle_data_collection`, after an earlier capture ended in the state `st`
and `start()` found nothing to drain. -/
def nextCaptureEntry (st : State) : State :=
  { st with
    isDataCollectionRunning := true
    stop_data_collection_flag := false
    sm_state := SM_START_DATA_COLLECTION
    sock_events := st.sock_events ++ [SockEvent.transmit HostCmd.HOST_START_DATA_COLLECTION]
    dispatched := st.dispatched ++
      [SM_SEND_START_DATA_COLLECTIION_CMD_TO_PS, SM_START_DATA_COLLECTION] }


/-! ## The declared capacity of the arrays -/

end DataCollection

/-! ## Theorems -/

namespace DataCollection

/-! ### Word arithmetic -/

theorem forLoop_zero {σ : Type} (body : Nat → σ → σ) (s : σ) : forLoop 0 body s = s := rfl

theorem forLoop_succ {σ : Type} (n : Nat) (body : Nat → σ → σ) (s : σ) :
    forLoop (n + 1) body s = body n (forLoop n body s) := by
  simp [forLoop, List.range_succ, List.foldl_append]

theorem encoder_position_loop (w : Nat → Nat) (n : Nat) (c : Cursor) :
    forLoop n (encoder_position_body w) c =
      { ps := { c.ps with
                encoder_position := fun k =>
                  if k < n then toInt32 (w (c.idx + k)) else c.ps.encoder_position k }
        idx := c.idx + n
        reads := c.reads ++ List.range' c.idx n } := by
  induction n with
  | zero => simp [forLoop_zero]
  | succ n ih =>
    rw [forLoop_succ, ih]
    simp only [encoder_position_body, List.append_assoc, Nat.add_assoc, List.range'_concat,
      Nat.one_mul]
    congr 2
    funext k
    by_cases hk : k = n
    · subst hk; simp
    · have : (k < n + 1) = (k < n) := by apply propext; omega
      simp [Function.update, hk, this]

theorem encoder_velocity_loop (w : Nat → Nat) (n : Nat) (c : Cursor) :
    forLoop n (encoder_velocity_body w) c =
      { ps := { c.ps with
                encoder_velocity := fun k =>
                  if k < n then w (c.idx + k) % 2 ^ 32 else c.ps.encoder_velocity k }
        idx := c.idx + n
        reads := c.reads ++ List.range' c.idx n } := by
  induction n with
  | zero => simp [forLoop_zero]
  | succ n ih =>
    rw [forLoop_succ, ih]
    simp only [encoder_velocity_body, List.append_assoc, Nat.add_assoc, List.range'_concat,
      Nat.one_mul]
    congr 2
    funext k
    by_cases hk : k = n
    · subst hk; simp
    · have : (k < n + 1) = (k < n) := by apply propext; omega
      simp [Function.update, hk, this]

theorem motor_loop (w : Nat → Nat) (n : Nat) (c : Cursor) :
    forLoop n (motor_body w) c =
      { ps := { c.ps with
                motor_status := fun k =>
                  if k < n then ((0xFFFF0000 &&& w (c.idx + k)) >>> 16) % 2 ^ 16
                  else c.ps.motor_status k
                motor_current := fun k =>
                  if k < n then (0x0000FFFF &&& w (c.idx + k)) % 2 ^ 16
                  else c.ps.motor_current k }
        idx := c.idx + n
        reads := c.reads ++ (List.range' c.idx n).flatMap (fun j => [j, j]) } := by
  induction n with
  | zero => simp [forLoop_zero]
  | succ n ih =>
    rw [forLoop_succ, ih]
    simp only [motor_body, List.append_assoc, Nat.add_assoc, List.range'_concat,
      Nat.one_mul, List.flatMap_append, List.flatMap_cons, List.flatMap_nil, List.append_nil]
    congr 2
    · funext k
      by_cases hk : k = n
      · subst hk; simp
      · have : (k < n + 1) = (k < n) := by apply propext; omega
        simp [Function.update, hk, this]
    · funext k
      by_cases hk : k = n
      · subst hk; simp
      · have : (k < n + 1) = (k < n) := by apply propext; omega
        simp [Function.update, hk, this]

/-! ### `process_sample` -/

theorem decode_sample_idx (m : DataCollectionMeta) (io : Bool) (w : Nat → Nat) (c : Cursor) :
    (decode_sample m io w c).idx = c.idx + sampleWords m io := by
  unfold decode_sample sampleWords
  simp only [encoder_position_loop, encoder_velocity_loop, motor_loop, timestamp_step]
  cases io <;> simp [ps_io_step] <;> omega

theorem decode_sample_ps (m : DataCollectionMeta) (io : Bool) (w : Nat → Nat) (c : Cursor) :
    (decode_sample m io w c).ps =
      { timestamp :=
          (((w c.idx % 2 ^ 64) <<< 32) % 2 ^ 64) ||| (w (c.idx + 1) % 2 ^ 32)
        encoder_position := fun k =>
          if k < m.num_encoders then toInt32 (w (c.idx + 2 + k)) else c.ps.encoder_position k
        encoder_velocity := fun k =>
          if k < m.num_encoders then w (c.idx + 2 + m.num_encoders + k) % 2 ^ 32
          else c.ps.encoder_velocity k
        motor_current := fun k =>
          if k < m.num_motors then
            (0x0000FFFF &&& w (c.idx + 2 + 2 * m.num_encoders + k)) % 2 ^ 16
          else c.ps.motor_current k
        motor_status := fun k =>
          if k < m.num_motors then
            ((0xFFFF0000 &&& w (c.idx + 2 + 2 * m.num_encoders + k)) >>> 16) % 2 ^ 16
          else c.ps.motor_status k
        force_torque := c.ps.force_torque
        digital_io :=
          if io then w (c.idx + 2 + 2 * m.num_encoders + m.num_motors) % 2 ^ 32
          else c.ps.digital_io
        mio_pins :=
          if io then w (c.idx + 3 + 2 * m.num_encoders + m.num_motors) % 2 ^ 32
          else c.ps.mio_pins } := by
  have e1 : c.idx + 2 + m.num_encoders + m.num_encoders = c.idx + 2 + 2 * m.num_encoders := by
    omega
  have e2 : c.idx + 2 + 2 * m.num_encoders + m.num_motors + 1 =
      c.idx + 3 + 2 * m.num_encoders + m.num_motors := by omega
  unfold decode_sample
  simp only [encoder_position_loop, encoder_velocity_loop, motor_loop, timestamp_step]
  cases io <;> simp [ps_io_step, e1, e2]

theorem process_sample_overrun_skips_aux (maxQuadlets : Nat) (m : DataCollectionMeta)
    (io : Bool) (w : Nat → Nat) (i : Nat) (ps0 : ProcessedSample)
    (hover : i + m.size_of_sample > maxQuadlets) :
    process_sample maxQuadlets m io w i ps0 = (ps0, []) := by
  simp [process_sample, hover]

/-- C2. If `start_idx + size_of_sample` exceeds `UDP_MAX_QUADLET_PER_PACKET`,
`process_sample` reads no word of the packet and returns the scratch sample
unchanged in every field. -/
theorem process_sample_overrun_skips (maxQuadlets : Nat) (m : DataCollectionMeta)
    (io : Bool) (w : Nat → Nat) (i : Nat) (ps0 : ProcessedSample)
    (hover : i + m.size_of_sample > maxQuadlets) :
    process_sample maxQuadlets m io w i ps0 = (ps0, []) := by
  simp [process_sample, hover]

theorem process_sample_overrun_skips_witness :
    357 + scenarioMeta.size_of_sample > 361 ∧
    process_sample 361 scenarioMeta true (bufferOfList scenarioWords) 357
      ProcessedSample.zero = (ProcessedSample.zero, []) :=
  ⟨by decide, process_sample_overrun_skips 361 scenarioMeta true
    (bufferOfList scenarioWords) 357 ProcessedSample.zero (by decide)⟩

/-! ### `process_and_write_data` -/

/-- C5 at a geometry without motors.  With one encoder, no motor and IO off
the header line is `TIMESTAMP,ENCODER_POS_1,ENCODER_VEL_1,`: split at commas
it has four columns, the last one empty, where the column list of the
specification has three.  With no encoder, no motor and IO on the line is
`TIMESTAMP,,DIGITAL_IO,MIO_PINS`, with an empty second column. -/
theorem write_csv_headers_no_motor_trailing_comma :
    (write_csv_headers (headerState 1 0 false)).myFile.content =
      "TIMESTAMP,ENCODER_POS_1,ENCODER_VEL_1,\n" ∧
    splitAtCommas (firstLine (write_csv_headers (headerState 1 0 false)).myFile.content) =
      ["TIMESTAMP", "ENCODER_POS_1", "ENCODER_VEL_1", ""] ∧
    specHeaderColumns 1 0 false = ["TIMESTAMP", "ENCODER_POS_1", "ENCODER_VEL_1"] ∧
    (write_csv_headers (headerState 0 0 true)).myFile.content =
      "TIMESTAMP,,DIGITAL_IO,MIO_PINS\n" ∧
    splitAtCommas (firstLine (write_csv_headers (headerState 0 0 true)).myFile.content) =
      ["TIMESTAMP", "", "DIGITAL_IO", "MIO_PINS"] ∧
    specHeaderColumns 0 0 true = ["TIMESTAMP", "DIGITAL_IO", "MIO_PINS"] := by
  refine ⟨by decide, by decide, by decide, by decide, by decide, by decide⟩

/-! ### `init` -/

theorem init_loop_succ (storeMeta : List Nat → DataCollectionMeta → DataCollectionMeta)
    (sample_rate : Int) (fuel : Nat) (st : State) (buf : List Nat) (polls : List UdpRecv) :
    init_loop storeMeta sample_rate (fuel + 1) st buf polls =
      match init_step storeMeta sample_rate st buf polls with
      | .running st1 buf1 polls1 => init_loop storeMeta sample_rate fuel st1 buf1 polls1
      | .returned ret st1 => .returned ret st1
      | .blocked st1 => .blocked st1 := rfl

theorem set_sm_state_self (st : State) (x : DataCollectionStateMachine)
    (h : st.sm_state = x) : { st with sm_state := x } = st := by
  cases st
  cases h
  rfl

theorem send_ready_frame (sample_rate : Int) (st : State) :
    (send_ready sample_rate st).dc_meta = st.dc_meta ∧
    (send_ready sample_rate st).sock_open = st.sock_open ∧
    (send_ready sample_rate st).sm_state = st.sm_state ∧
    ∃ ready, (send_ready sample_rate st).sock_events = st.sock_events ++ ready ∧
      ∀ e ∈ ready, e ∈ readyCommands sample_rate := by
  unfold send_ready
  cases hio : st.use_ps_io <;> cases hsr : st.use_sample_rate <;>
    simp [State.transmit, hio, hsr, readyCommands]

/-- In a receive state, outcomes on which `init` polls again are consumed one
per iteration and leave the state unchanged. -/
theorem init_loop_retries (storeMeta : List Nat → DataCollectionMeta → DataCollectionMeta)
    (sample_rate : Int) (st : State) (buf : List Nat)
    (hst : st.sm_state = SM_RECV_DATA_COLLECTION_META_DATA ∨
      st.sm_state = SM_WAIT_FOR_PS_HANDSHAKE) :
    ∀ (pre rest : List UdpRecv) (fuel : Nat), (∀ r ∈ pre, r.isRetry = true) →
      init_loop storeMeta sample_rate (pre.length + fuel) st buf (pre ++ rest) =
        init_loop storeMeta sample_rate fuel st buf rest := by
  intro pre
  induction pre with
  | nil => intro rest fuel _; simp
  | cons r pre ih =>
    intro rest fuel hpre
    have hr : r.isRetry = true := hpre r (by simp)
    have hpre' : ∀ x ∈ pre, x.isRetry = true := fun x hx => hpre x (by simp [hx])
    have hfuel : (r :: pre).length + fuel = (pre.length + fuel) + 1 := by
      simp only [List.length_cons]; omega
    rw [hfuel, init_loop_succ]
    rcases hst with h | h <;>
      cases r <;> simp [UdpRecv.isRetry] at hr <;>
      simp only [init_step, h, List.cons_append] <;>
      rw [set_sm_state_self st _ h] <;>
      exact ih rest fuel hpre'

theorem acceptedHwvers_iff (h : Nat) :
    acceptedHwvers h = true ↔ h = 0x514C4131 ∨ h = 0x64524131 ∨ h = 0x44514C41 := by
  simp only [acceptedHwvers, dRA1_String, QLA1_String, DQLA_String, Bool.or_eq_true,
    beq_iff_eq]
  constructor
  · rintro ((h | h) | h) <;> simp [h]
  · rintro (h | h | h) <;> simp [h]

/-- `init` returns `true` only from the state `SM_WAIT_FOR_PS_HANDSHAKE`, which
is entered only after metadata with an accepted hardware version was
stored. -/
theorem init_loop_true_accepted (storeMeta : List Nat → DataCollectionMeta → DataCollectionMeta)
    (sample_rate : Int) :
    ∀ (fuel : Nat) (st : State) (buf : List Nat) (polls : List UdpRecv) (st' : State),
      (st.sm_state = SM_SEND_METADATA_RECV ∨ st.sm_state = SM_WAIT_FOR_PS_HANDSHAKE →
        acceptedHwvers st.dc_meta.hwvers = true) →
      init_loop storeMeta sample_rate fuel st buf polls = .returned true st' →
      acceptedHwvers st'.dc_meta.hwvers = true := by
  intro fuel
  induction fuel with
  | zero => intro st buf polls st' _ h; simp [init_loop] at h
  | succ fuel ih =>
    intro st buf polls st' hinv h
    rw [init_loop_succ] at h
    cases hsm : st.sm_state
    case SM_SEND_READY_STATE_TO_PS =>
      simp only [init_step, hsm] at h
      exact ih _ _ _ _ (by simp) h
    case SM_RECV_DATA_COLLECTION_META_DATA =>
      cases polls with
      | nil => simp [init_step, hsm] at h
      | cons r rest =>
        cases r
        case data payload =>
          simp only [init_step, hsm] at h
          by_cases hacc : acceptedHwvers (storeMeta payload st.dc_meta).hwvers = true
          · simp only [hacc, if_true] at h
            exact ih _ _ _ _ (by intro _; exact hacc) h
          · simp only [hacc, if_false] at h
            exact ih _ _ _ _ (by simp) h
        all_goals
          simp only [init_step, hsm] at h
          exact ih _ _ _ _ (by simp) h
    case SM_SEND_METADATA_RECV =>
      simp only [init_step, hsm] at h
      exact ih _ _ _ _ (by intro _; exact hinv (Or.inl hsm)) h
    case SM_WAIT_FOR_PS_HANDSHAKE =>
      cases polls with
      | nil => simp [init_step, hsm] at h
      | cons r rest =>
        cases r
        case data payload =>
          simp only [init_step, hsm] at h
          by_cases hcmp : strcmp_eq (storeBytes buf 100 payload) ZYNQ_READY_LITERAL = true
          · simp only [hcmp, if_true, LoopStatus.returned.injEq, true_and] at h
            rw [← h]
            exact hinv (Or.inr hsm)
          · simp only [hcmp, if_false] at h
            exact ih _ _ _ _ (by simp) h
        all_goals
          simp only [init_step, hsm] at h
          refine ih _ _ _ _ ?_ h
          intro _
          exact hinv (Or.inr hsm)
    case SM_CLOSE_SOCKET =>
      simp [init_step, hsm] at h
    all_goals
      simp only [init_step, hsm] at h
      exact ih _ _ _ _ (by intro hh; rw [hsm] at hh; simp at hh) h

theorem closeCount_append (a b : List SockEvent) :
    closeCount (a ++ b) = closeCount a + closeCount b := by
  simp [closeCount]

theorem closeCount_ready (sample_rate : Int) (ready : List SockEvent)
    (h : ∀ e ∈ ready, e ∈ readyCommands sample_rate) : closeCount ready = 0 := by
  unfold closeCount
  rw [List.count_eq_zero]
  intro hmem
  have := h _ hmem
  simp [readyCommands] at this

/-- The loop of `init` does not outlast its budget: within that many
iterations it has returned or has used up the poll outcomes. -/
theorem init_loop_within_budget
    (storeMeta : List Nat → DataCollectionMeta → DataCollectionMeta) (sample_rate : Int) :
    ∀ (fuel : Nat) (st : State) (buf : List Nat) (polls : List UdpRecv) (b : Nat),
      initBudget st.sm_state polls.length = some b → b ≤ fuel →
      ∀ st' buf' polls',
        init_loop storeMeta sample_rate fuel st buf polls ≠ .running st' buf' polls' := by
  intro fuel
  induction fuel with
  | zero =>
    intro st buf polls b hb hle
    cases hsm : st.sm_state <;> rw [hsm] at hb <;> simp [initBudget] at hb <;> omega
  | succ fuel ih =>
    intro st buf polls b hb hle st' buf' polls' h
    rw [init_loop_succ] at h
    cases hsm : st.sm_state <;> rw [hsm] at hb <;> simp only [initBudget] at hb
    case SM_SEND_READY_STATE_TO_PS =>
      simp only [init_step, hsm] at h
      refine ih _ _ _ (polls.length + 3) ?_ ?_ _ _ _ h
      · rfl
      · simp at hb; omega
    case SM_RECV_DATA_COLLECTION_META_DATA =>
      cases polls with
      | nil => simp [init_step, hsm] at h
      | cons r rest =>
        simp only [List.length_cons, Option.some.injEq] at hb
        cases r
        case data payload =>
          simp only [init_step, hsm] at h
          by_cases hacc : acceptedHwvers (storeMeta payload st.dc_meta).hwvers = true
          · simp only [hacc, if_true] at h
            refine ih _ _ _ (rest.length + 2) ?_ ?_ _ _ _ h
            · rfl
            · omega
          · simp only [hacc, if_false] at h
            refine ih _ _ _ 1 ?_ ?_ _ _ _ h
            · rfl
            · omega
        case UDP_DATA_IS_NOT_AVAILABLE_WITHIN_TIMEOUT =>
          simp only [init_step, hsm] at h
          refine ih _ _ _ (rest.length + 3) ?_ ?_ _ _ _ h
          · rfl
          · omega
        case UDP_NON_UDP_DATA_IS_AVAILABLE =>
          simp only [init_step, hsm] at h
          refine ih _ _ _ (rest.length + 3) ?_ ?_ _ _ _ h
          · rfl
          · omega
        all_goals
          simp only [init_step, hsm] at h
          refine ih _ _ _ 1 ?_ ?_ _ _ _ h
          · rfl
          · omega
    case SM_SEND_METADATA_RECV =>
      simp only [init_step, hsm] at h
      refine ih _ _ _ (polls.length + 1) ?_ ?_ _ _ _ h
      · rfl
      · simp at hb; omega
    case SM_WAIT_FOR_PS_HANDSHAKE =>
      cases polls with
      | nil => simp [init_step, hsm] at h
      | cons r rest =>
        simp only [List.length_cons, Option.some.injEq] at hb
        cases r
        case data payload =>
          simp only [init_step, hsm] at h
          by_cases hcmp : strcmp_eq (storeBytes buf 100 payload) ZYNQ_READY_LITERAL = true
          · simp [hcmp] at h
          · simp only [hcmp, if_false] at h
            refine ih _ _ _ 1 ?_ ?_ _ _ _ h
            · rfl
            · omega
        case UDP_DATA_IS_NOT_AVAILABLE_WITHIN_TIMEOUT =>
          simp only [init_step, hsm] at h
          refine ih _ _ _ (rest.length + 1) ?_ ?_ _ _ _ h
          · rfl
          · omega
        case UDP_NON_UDP_DATA_IS_AVAILABLE =>
          simp only [init_step, hsm] at h
          refine ih _ _ _ (rest.length + 1) ?_ ?_ _ _ _ h
          · rfl
          · omega
        all_goals
          simp only [init_step, hsm] at h
          refine ih _ _ _ 1 ?_ ?_ _ _ _ h
          · rfl
          · omega
    case SM_CLOSE_SOCKET =>
      simp [init_step, hsm] at h
    all_goals simp at hb

/-- `init` returns, or blocks in a poll with the outcomes used up. -/
theorem init_not_running (storeMeta : List Nat → DataCollectionMeta → DataCollectionMeta)
    (udp_init_ok : Bool) ( usePSIO useSampleRate : Bool) (sample_rate : Int) (st : State)
    (polls : List UdpRecv) (st' : State) (buf' : List Nat) (polls' : List UdpRecv) :
    init storeMeta udp_init_ok usePSIO useSampleRate sample_rate st polls ≠
      .running st' buf' polls' := by
  cases udp_init_ok
  · simp [init]
  · simp only [init, Bool.not_true, Bool.false_eq_true, if_false]
    have hsm : (init_entry usePSIO useSampleRate st).sm_state = SM_SEND_READY_STATE_TO_PS := by
      unfold init_entry; cases useSampleRate <;> rfl
    exact init_loop_within_budget storeMeta sample_rate _ _ _ _ (polls.length + 4)
      (by rw [hsm]; rfl) (Nat.le_refl _) _ _ _

/-- C6. Let the polls of `init` be `pre ++ data payload :: post`, where `pre`
holds only timeouts and non-UDP data, and let `h` be the hardware version
that the payload puts into `dc_meta`.  If `h` is none of `0x514C4131`,
`0x64524131`, `0x44514C41`, `init` returns `false`, the socket is closed exactly
once, and what was transmitted is only the ready commands (no metadata
acknowledgement).  If `h` is one of the three, the loop stands in
`SM_SEND_METADATA_RECV` after that poll, with the socket open.  And whenever
`init` returns `true`, the stored hardware version is one of the three. -/
theorem init_accepts_only_known_hardware
    (storeMeta : List Nat → DataCollectionMeta → DataCollectionMeta)
    ( usePSIO useSampleRate : Bool) (sample_rate : Int) (st : State)
    (pre post : List UdpRecv) (payload : List Nat)
    (hpre : ∀ r ∈ pre, r.isRetry = true) :
    (((storeMeta payload st.dc_meta).hwvers ≠ 0x514C4131 ∧
      (storeMeta payload st.dc_meta).hwvers ≠ 0x64524131 ∧
      (storeMeta payload st.dc_meta).hwvers ≠ 0x44514C41) →
      ∃ st' ready,
        init storeMeta true usePSIO useSampleRate sample_rate st
          (pre ++ UdpRecv.data payload :: post) = .returned false st' ∧
        st'.sock_open = false ∧
        closeCount st'.sock_events = closeCount st.sock_events + 1 ∧
        st'.sock_events = st.sock_events ++ ready ++ [SockEvent.close] ∧
        (∀ e ∈ ready, e ∈ readyCommands sample_rate) ∧
        SockEvent.transmit HostCmd.HOST_RECVD_METADATA ∉ ready) ∧
    (((storeMeta payload st.dc_meta).hwvers = 0x514C4131 ∨
      (storeMeta payload st.dc_meta).hwvers = 0x64524131 ∨
      (storeMeta payload st.dc_meta).hwvers = 0x44514C41) →
      ∃ st',
        init_loop storeMeta sample_rate (pre.length + 2)
          (init_entry usePSIO useSampleRate st) (List.replicate 100 0)
          (pre ++ UdpRecv.data payload :: post) = .running st' (List.replicate 100 0) post ∧
        st'.sm_state = SM_SEND_METADATA_RECV ∧
        st'.dc_meta = storeMeta payload st.dc_meta ∧
        st'.sock_open = true ∧
        closeCount st'.sock_events = closeCount st.sock_events) ∧
    (∀ (udp_init_ok : Bool) (polls : List UdpRecv) (st' : State),
      init storeMeta udp_init_ok usePSIO useSampleRate sample_rate st polls =
        .returned true st' →
      st'.dc_meta.hwvers = 0x514C4131 ∨ st'.dc_meta.hwvers = 0x64524131 ∨
        st'.dc_meta.hwvers = 0x44514C41) := by
  have hentry_sm : (init_entry usePSIO useSampleRate st).sm_state =
      SM_SEND_READY_STATE_TO_PS := by
    unfold init_entry; cases useSampleRate <;> rfl
  have hentry_meta : (init_entry usePSIO useSampleRate st).dc_meta = st.dc_meta := by
    unfold init_entry; cases useSampleRate <;> rfl
  have hentry_ev : (init_entry usePSIO useSampleRate st).sock_events = st.sock_events := by
    unfold init_entry; cases useSampleRate <;> rfl
  have hentry_open : (init_entry usePSIO useSampleRate st).sock_open = true := by
    unfold init_entry; cases useSampleRate <;> rfl
  obtain ⟨hmeta, hopen, -, ready, hev, hready⟩ :=
    send_ready_frame sample_rate (init_entry usePSIO useSampleRate st)
  refine ⟨?_, ?_, ?_⟩
  · intro hbad
    have hacc : acceptedHwvers (storeMeta payload st.dc_meta).hwvers = false := by
      rw [Bool.eq_false_iff]
      intro hh
      rw [acceptedHwvers_iff] at hh
      omega
    have hfuel : (pre ++ UdpRecv.data payload :: post).length + 4 =
        (pre.length + (post.length + 2 + 1 + 1)) + 1 := by
      simp only [List.length_append, List.length_cons]; omega
    refine ⟨State.closeSocket
      { send_ready sample_rate (init_entry usePSIO useSampleRate st) with
        dc_meta := storeMeta payload st.dc_meta
        sm_state := SM_CLOSE_SOCKET }, ready, ?_, ?_, ?_, ?_, hready, ?_⟩
    · simp only [init, Bool.not_true, Bool.false_eq_true, if_false]
      rw [hfuel, init_loop_succ]
      simp only [init_step, hentry_sm]
      rw [init_loop_retries _ _ _ _ (Or.inl rfl) pre _ _ hpre, init_loop_succ]
      simp only [init_step, hmeta, hentry_meta, hacc, Bool.false_eq_true, if_false]
      rw [init_loop_succ]
      simp only [init_step]
    · rfl
    · simp only [State.closeSocket, hev, hentry_ev, closeCount_append,
        closeCount_ready sample_rate ready hready]
      simp [closeCount]
    · simp only [State.closeSocket, hev, hentry_ev]
    · intro hmem
      have := hready _ hmem
      simp [readyCommands] at this
  · intro hgood
    have hacc : acceptedHwvers (storeMeta payload st.dc_meta).hwvers = true :=
      (acceptedHwvers_iff _).mpr hgood
    have hfuel : pre.length + 2 = (pre.length + (0 + 1)) + 1 := by omega
    refine ⟨{ send_ready sample_rate (init_entry usePSIO useSampleRate st) with
        dc_meta := storeMeta payload st.dc_meta
        sm_state := SM_SEND_METADATA_RECV }, ?_, ?_, ?_, ?_, ?_⟩
    · rw [hfuel, init_loop_succ]
      simp only [init_step, hentry_sm]
      rw [init_loop_retries _ _ _ _ (Or.inl rfl) pre _ _ hpre, init_loop_succ]
      simp only [init_step, hmeta, hentry_meta, hacc, if_true]
      rfl
    · rfl
    · rfl
    · simp only [hopen, hentry_open]
    · simp only [hev, hentry_ev, closeCount_append,
        closeCount_ready sample_rate ready hready, Nat.add_zero]
  · intro udp_init_ok polls st' h
    rw [← acceptedHwvers_iff]
    cases udp_init_ok
    · simp [init] at h
    · simp only [init, Bool.not_true, Bool.false_eq_true, if_false] at h
      exact init_loop_true_accepted storeMeta sample_rate _ _ _ _ st'
        (by intro hh; rw [hentry_sm] at hh; simp at hh) h

theorem init_accepts_only_known_hardware_witness :
    (∀ r ∈ [UdpRecv.UDP_DATA_IS_NOT_AVAILABLE_WITHIN_TIMEOUT,
        UdpRecv.UDP_NON_UDP_DATA_IS_AVAILABLE], r.isRetry = true) ∧
    ((fieldLayout unknownHardwarePayload scenarioMeta).hwvers ≠ 0x514C4131 ∧
      (fieldLayout unknownHardwarePayload scenarioMeta).hwvers ≠ 0x64524131 ∧
      (fieldLayout unknownHardwarePayload scenarioMeta).hwvers ≠ 0x44514C41) ∧
    (∃ st' ready,
      init fieldLayout true true false 0 (exampleState scenarioMeta false (fun _ => 0))
        ([UdpRecv.UDP_DATA_IS_NOT_AVAILABLE_WITHIN_TIMEOUT,
          UdpRecv.UDP_NON_UDP_DATA_IS_AVAILABLE] ++
          UdpRecv.data unknownHardwarePayload :: []) = .returned false st' ∧
      st'.sock_open = false ∧
      closeCount st'.sock_events = 0 + 1 ∧
      st'.sock_events = [] ++ ready ++ [SockEvent.close] ∧
      (∀ e ∈ ready, e ∈ readyCommands 0) ∧
      SockEvent.transmit HostCmd.HOST_RECVD_METADATA ∉ ready) ∧
    ((fieldLayout qla1Payload scenarioMeta).hwvers = 0x514C4131 ∨
      (fieldLayout qla1Payload scenarioMeta).hwvers = 0x64524131 ∨
      (fieldLayout qla1Payload scenarioMeta).hwvers = 0x44514C41) ∧
    (∃ st',
      init_loop fieldLayout 0 (2 + 2)
        (init_entry true false (exampleState scenarioMeta false (fun _ => 0)))
        (List.replicate 100 0)
        ([UdpRecv.UDP_DATA_IS_NOT_AVAILABLE_WITHIN_TIMEOUT,
          UdpRecv.UDP_NON_UDP_DATA_IS_AVAILABLE] ++ UdpRecv.data qla1Payload :: []) =
        .running st' (List.replicate 100 0) [] ∧
      st'.sm_state = SM_SEND_METADATA_RECV ∧
      st'.dc_meta = fieldLayout qla1Payload scenarioMeta ∧
      st'.sock_open = true ∧
      closeCount st'.sock_events = 0) :=
  ⟨by decide, by decide,
    (init_accepts_only_known_hardware fieldLayout true false 0
      (exampleState scenarioMeta false (fun _ => 0))
      [UdpRecv.UDP_DATA_IS_NOT_AVAILABLE_WITHIN_TIMEOUT, UdpRecv.UDP_NON_UDP_DATA_IS_AVAILABLE]
      [] unknownHardwarePayload (by decide)).1 (by decide),
    by decide,
    (init_accepts_only_known_hardware fieldLayout true false 0
      (exampleState scenarioMeta false (fun _ => 0))
      [UdpRecv.UDP_DATA_IS_NOT_AVAILABLE_WITHIN_TIMEOUT, UdpRecv.UDP_NON_UDP_DATA_IS_AVAILABLE]
      [] qla1Payload (by decide)).2.1 (by decide)⟩

/-! ### The readiness string -/

theorem cstr_append_zeros (a : List Nat) (n : Nat) :
    cstr (a ++ List.replicate n 0) = cstr a := by
  induction a with
  | nil => cases n <;> simp [cstr, List.replicate_succ]
  | cons x a ih =>
    unfold cstr at ih ⊢
    by_cases hx : x = 0
    · simp [hx]
    · simp [List.takeWhile_cons, hx, ih]

theorem cstr_take (p : List Nat) : ∀ n, cstr (p.take n) = (cstr p).take n := by
  induction p with
  | nil => intro n; simp [cstr]
  | cons x p ih =>
    intro n
    cases n with
    | zero => simp [cstr]
    | succ n =>
      unfold cstr at ih ⊢
      by_cases hx : x = 0
      · simp [hx]
      · simp [List.takeWhile_cons, hx, ih]

theorem take_eq_iff_of_length_lt (c l : List Nat) (n : Nat) (hl : l.length < n) :
    c.take n = l ↔ c = l := by
  constructor
  · intro h
    have hlen : (c.take n).length = l.length := by rw [h]
    rw [List.length_take] at hlen
    have : c.length ≤ n := by omega
    rw [List.take_of_length_le this] at h
    exact h
  · intro h
    rw [h, List.take_of_length_le (by omega)]

/-- The comparison of `init` succeeds on a zeroed `recvBuffer` exactly when
the payload, read as a C string, is the readiness literal. -/
theorem strcmp_ready_iff (payload : List Nat) :
    strcmp_eq (storeBytes (List.replicate 100 0) 100 payload) ZYNQ_READY_LITERAL = true ↔
      cstr payload = literalBytes "ZYNQ: READY FOR DATA COLLECTION" := by
  have hlit : cstr ZYNQ_READY_LITERAL = literalBytes "ZYNQ: READY FOR DATA COLLECTION" := by
    decide
  have hlen : (literalBytes "ZYNQ: READY FOR DATA COLLECTION").length < 100 := by decide
  unfold strcmp_eq storeBytes
  rw [hlit, List.drop_replicate, cstr_append_zeros, cstr_take, beq_iff_eq]
  exact take_eq_iff_of_length_lt _ _ _ hlen

/-- Throughout `init` the local `recvBuffer` is still zeroed whenever the loop
is about to dispatch a state other than `SM_CLOSE_SOCKET`: only a mismatching
payload in `SM_WAIT_FOR_PS_HANDSHAKE` is kept in the buffer, and it leads to
`SM_CLOSE_SOCKET`. -/
theorem init_loop_buffer_zeroed
    (storeMeta : List Nat → DataCollectionMeta → DataCollectionMeta) (sample_rate : Int) :
    ∀ (fuel : Nat) (st : State) (buf : List Nat) (polls : List UdpRecv)
      (st' : State) (buf' : List Nat) (polls' : List UdpRecv),
      (buf = List.replicate 100 0 ∨ st.sm_state = SM_CLOSE_SOCKET) →
      init_loop storeMeta sample_rate fuel st buf polls = .running st' buf' polls' →
      (buf' = List.replicate 100 0 ∨ st'.sm_state = SM_CLOSE_SOCKET) := by
  intro fuel
  induction fuel with
  | zero =>
    intro st buf polls st' buf' polls' hI h
    simp only [init_loop, LoopStatus.running.injEq] at h
    obtain ⟨rfl, rfl, -⟩ := h
    exact hI
  | succ fuel ih =>
    intro st buf polls st' buf' polls' hI h
    rw [init_loop_succ] at h
    cases hsm : st.sm_state
    case SM_CLOSE_SOCKET => simp [init_step, hsm] at h
    case SM_RECV_DATA_COLLECTION_META_DATA =>
      have hbuf : buf = List.replicate 100 0 := by
        rcases hI with h1 | h1
        · exact h1
        · rw [hsm] at h1; simp at h1
      cases polls with
      | nil => simp [init_step, hsm] at h
      | cons r rest =>
        cases r
        case data payload =>
          simp only [init_step, hsm] at h
          by_cases hacc : acceptedHwvers (storeMeta payload st.dc_meta).hwvers = true
          · simp only [hacc, if_true] at h
            exact ih _ _ _ _ _ _ (Or.inl hbuf) h
          · simp only [hacc, if_false] at h
            exact ih _ _ _ _ _ _ (Or.inl hbuf) h
        all_goals
          simp only [init_step, hsm] at h
          exact ih _ _ _ _ _ _ (Or.inl hbuf) h
    case SM_WAIT_FOR_PS_HANDSHAKE =>
      have hbuf : buf = List.replicate 100 0 := by
        rcases hI with h1 | h1
        · exact h1
        · rw [hsm] at h1; simp at h1
      cases polls with
      | nil => simp [init_step, hsm] at h
      | cons r rest =>
        cases r
        case data payload =>
          simp only [init_step, hsm] at h
          by_cases hcmp : strcmp_eq (storeBytes buf 100 payload) ZYNQ_READY_LITERAL = true
          · simp [hcmp] at h
          · simp only [hcmp, if_false] at h
            exact ih _ _ _ _ _ _ (Or.inr rfl) h
        all_goals
          simp only [init_step, hsm] at h
          exact ih _ _ _ _ _ _ (Or.inl hbuf) h
    all_goals
      have hbuf : buf = List.replicate 100 0 := by
        rcases hI with h1 | h1
        · exact h1
        · rw [hsm] at h1; simp at h1
      simp only [init_step, hsm] at h
      exact ih _ _ _ _ _ _ (Or.inl hbuf) h

/-- C7 (amended). In `SM_WAIT_FOR_PS_HANDSHAKE`, with `recvBuffer` still zeroed: `init`
returns `true` on a received payload if and only if the payload, as a C
string, is `"ZYNQ: READY FOR DATA COLLECTION"`, and then nothing is
transmitted and the socket stays as it was; on every other payload it goes
to `SM_CLOSE_SOCKET`, closes the socket and returns `false`; on a timeout or
non-UDP data the iteration leaves the whole state, `SM_WAIT_FOR_PS_HANDSHAKE`
included, unchanged; on a hard error it closes the socket and returns
`false`. -/
theorem init_wait_for_handshake
    (storeMeta : List Nat → DataCollectionMeta → DataCollectionMeta) (sample_rate : Int)
    (st : State) (rest : List UdpRecv) (fuel : Nat)
    (hst : st.sm_state = SM_WAIT_FOR_PS_HANDSHAKE) :
    (∀ payload,
      (∃ st', init_loop storeMeta sample_rate (fuel + 2) st (List.replicate 100 0)
          (UdpRecv.data payload :: rest) = .returned true st') ↔
        cstr payload = literalBytes "ZYNQ: READY FOR DATA COLLECTION") ∧
    (∀ payload, cstr payload = literalBytes "ZYNQ: READY FOR DATA COLLECTION" →
      init_loop storeMeta sample_rate (fuel + 2) st (List.replicate 100 0)
          (UdpRecv.data payload :: rest) =
        .returned true { st with sm_state := SM_SEND_START_DATA_COLLECTIION_CMD_TO_PS }) ∧
    (∀ payload, cstr payload ≠ literalBytes "ZYNQ: READY FOR DATA COLLECTION" →
      init_loop storeMeta sample_rate (fuel + 2) st (List.replicate 100 0)
          (UdpRecv.data payload :: rest) =
        .returned false
          { st with
            sm_state := SM_CLOSE_SOCKET
            sock_open := false
            sock_events := st.sock_events ++ [SockEvent.close] }) ∧
    (∀ r : UdpRecv, r.isRetry = true →
      init_step storeMeta sample_rate st (List.replicate 100 0) (r :: rest) =
        .running st (List.replicate 100 0) rest) ∧
    (∀ r : UdpRecv, r.isHardError = true →
      init_loop storeMeta sample_rate (fuel + 2) st (List.replicate 100 0) (r :: rest) =
        .returned false
          { st with
            sm_state := SM_CLOSE_SOCKET
            sock_open := false
            sock_events := st.sock_events ++ [SockEvent.close] }) := by
  have hgood : ∀ payload, cstr payload = literalBytes "ZYNQ: READY FOR DATA COLLECTION" →
      init_loop storeMeta sample_rate (fuel + 2) st (List.replicate 100 0)
          (UdpRecv.data payload :: rest) =
        .returned true { st with sm_state := SM_SEND_START_DATA_COLLECTIION_CMD_TO_PS } := by
    intro payload hp
    rw [init_loop_succ]
    simp only [init_step, hst, (strcmp_ready_iff payload).mpr hp, if_true]
  have hbad : ∀ payload, cstr payload ≠ literalBytes "ZYNQ: READY FOR DATA COLLECTION" →
      init_loop storeMeta sample_rate (fuel + 2) st (List.replicate 100 0)
          (UdpRecv.data payload :: rest) =
        .returned false
          { st with
            sm_state := SM_CLOSE_SOCKET
            sock_open := false
            sock_events := st.sock_events ++ [SockEvent.close] } := by
    intro payload hp
    have hcmp : strcmp_eq (storeBytes (List.replicate 100 0) 100 payload)
        ZYNQ_READY_LITERAL = false := by
      rw [Bool.eq_false_iff]
      exact fun h => hp ((strcmp_ready_iff payload).mp h)
    rw [init_loop_succ]
    simp only [init_step, hst, hcmp, Bool.false_eq_true, if_false]
    rw [init_loop_succ]
    simp only [init_step, State.closeSocket]
  refine ⟨?_, hgood, hbad, ?_, ?_⟩
  · intro payload
    constructor
    · rintro ⟨st', h⟩
      by_contra hp
      rw [hbad payload hp] at h
      simp at h
    · intro hp
      exact ⟨_, hgood payload hp⟩
  · intro r hr
    cases r <;> simp [UdpRecv.isRetry] at hr <;>
      simp only [init_step, hst] <;>
      rw [set_sm_state_self st _ hst]
  · intro r hr
    cases r <;> simp [UdpRecv.isHardError] at hr <;>
      (rw [init_loop_succ]
       simp only [init_step, hst]
       rw [init_loop_succ]
       simp only [init_step, State.closeSocket])

theorem init_wait_for_handshake_witness :
    waitingState.sm_state = SM_WAIT_FOR_PS_HANDSHAKE ∧
    cstr (literalBytes "ZYNQ: READY FOR DATA COLLECTION" ++ [0]) =
      literalBytes "ZYNQ: READY FOR DATA COLLECTION" ∧
    init_loop fieldLayout 0 (0 + 2) waitingState (List.replicate 100 0)
        (UdpRecv.data (literalBytes "ZYNQ: READY FOR DATA COLLECTION" ++ [0]) :: []) =
      .returned true
        { waitingState with sm_state := SM_SEND_START_DATA_COLLECTIION_CMD_TO_PS } :=
  ⟨by decide, by decide,
    (init_wait_for_handshake fieldLayout 0 waitingState [] 0 (by decide)).2.1
      (literalBytes "ZYNQ: READY FOR DATA COLLECTION" ++ [0]) (by decide)⟩

/-! ### What writing to the file leaves unchanged -/

theorem terminate_loop_retries (lit : List Nat) (st : State) (buf : List Nat) :
    ∀ (pre rest : List UdpRecv), (∀ r ∈ pre, r.isRetry = true) →
      terminate_loop lit st buf (pre ++ rest) = terminate_loop lit st buf rest := by
  intro pre
  induction pre with
  | nil => intro rest _; rfl
  | cons r pre ih =>
    intro rest hpre
    have hr : r.isRetry = true := hpre r (by simp)
    have hpre' : ∀ x ∈ pre, x.isRetry = true := fun x hx => hpre x (by simp [hx])
    cases r <;> simp [UdpRecv.isRetry] at hr <;>
      simp only [List.cons_append, terminate_loop, terminate_step] <;>
      exact ih rest hpre'

/-- What `terminate` does for every sequence of polls on which it returns:
after any number of timeouts and non-UDP data, the termination string makes
it close the socket and return `true`; any other payload and any hard error
make it return `false` with the socket not closed. -/
theorem terminate_outcomes (lit : List Nat) (st : State) (pre post : List UdpRecv)
    (hpre : ∀ r ∈ pre, r.isRetry = true) :
    (∀ payload, strcmp_eq (storeBytes (List.replicate 100 0) 31 payload) lit = true →
      terminate lit st (pre ++ UdpRecv.data payload :: post) =
        .returned true
          { st with
            sock_open := false
            sock_events := st.sock_events ++
              [SockEvent.transmit HostCmd.HOST_TERMINATE_SERVER, SockEvent.close] }) ∧
    (∀ payload, strcmp_eq (storeBytes (List.replicate 100 0) 31 payload) lit = false →
      terminate lit st (pre ++ UdpRecv.data payload :: post) =
        .returned false
          { st with
            sock_events := st.sock_events ++
              [SockEvent.transmit HostCmd.HOST_TERMINATE_SERVER] }) ∧
    (∀ r : UdpRecv, r.isHardError = true →
      terminate lit st (pre ++ r :: post) =
        .returned false
          { st with
            sock_events := st.sock_events ++
              [SockEvent.transmit HostCmd.HOST_TERMINATE_SERVER] }) := by
  refine ⟨?_, ?_, ?_⟩
  · intro payload h
    unfold terminate
    rw [terminate_loop_retries lit _ _ pre _ hpre]
    simp only [terminate_loop, terminate_step, h, if_true, State.closeSocket, State.transmit,
      List.append_assoc, List.singleton_append]
  · intro payload h
    unfold terminate
    rw [terminate_loop_retries lit _ _ pre _ hpre]
    simp only [terminate_loop, terminate_step, h, Bool.false_eq_true, if_false,
      State.transmit]
  · intro r hr
    unfold terminate
    rw [terminate_loop_retries lit _ _ pre _ hpre]
    cases r <;> simp [UdpRecv.isHardError] at hr <;>
      simp only [terminate_loop, terminate_step, State.transmit]

/-- C10 on three poll sequences.  When the first poll is a socket error, or
delivers a payload that is not the termination string, `terminate` returns
`false` and `close(sock_id)` has not been called: the socket is still open.
Only the termination string leads to the call of `close`. -/
theorem terminate_failure_leaves_socket_open :
    (match terminate terminationExample (exampleState scenarioMeta false (fun _ => 0))
        [UdpRecv.UDP_SOCKET_ERROR] with
      | .returned ret st' => (ret, st'.sock_open, closeCount st'.sock_events, st'.sock_events)
      | _ => (true, false, 0, [])) =
      (false, true, 0, [SockEvent.transmit HostCmd.HOST_TERMINATE_SERVER]) ∧
    (match terminate terminationExample (exampleState scenarioMeta false (fun _ => 0))
        [UdpRecv.UDP_DATA_IS_NOT_AVAILABLE_WITHIN_TIMEOUT,
          UdpRecv.data (literalBytes "ZYNQ: READY FOR DATA COLLECTION")] with
      | .returned ret st' => (ret, st'.sock_open, closeCount st'.sock_events, st'.sock_events)
      | _ => (true, false, 0, [])) =
      (false, true, 0, [SockEvent.transmit HostCmd.HOST_TERMINATE_SERVER]) ∧
    (match terminate terminationExample (exampleState scenarioMeta false (fun _ => 0))
        [UdpRecv.data terminationExample] with
      | .returned ret st' => (ret, st'.sock_open, closeCount st'.sock_events, st'.sock_events)
      | _ => (false, true, 0, [])) =
      (true, false, 1,
        [SockEvent.transmit HostCmd.HOST_TERMINATE_SERVER, SockEvent.close]) := by
  refine ⟨by decide, by decide, by decide⟩

/-! ### One capture: the output file -/

/-- The state in which the worker calls `handle_data_collection`: the start
command has been transmitted. -/
theorem collect_data_eq (maxQuadlets : Nat) (fmt : FloatFormat)
    (storePacket : Nat → List Nat → (Nat → Nat) → (Nat → Nat)) (filename : String)
    (st : State) (polls : List UdpRecv) (hidle : st.isDataCollectionRunning = false) :
    collect_data maxQuadlets fmt storePacket filename st polls =
      match handle_data_collection maxQuadlets fmt storePacket filename
        { st with
          isDataCollectionRunning := true
          stop_data_collection_flag := false
          sm_state := SM_START_DATA_COLLECTION
          sock_events := st.sock_events ++
            [SockEvent.transmit HostCmd.HOST_START_DATA_COLLECTION]
          dispatched := st.dispatched ++
            [SM_SEND_START_DATA_COLLECTIION_CMD_TO_PS, SM_START_DATA_COLLECTION] } polls with
      | .done st1 => .done { st1 with sm_state := SM_EXIT }
      | .hung st1 => .hung st1
      | .unfinished st1 => .unfinished st1 := by
  simp only [collect_data, hidle, Bool.false_eq_true, if_false, collect_data_loop,
    State.transmit, List.append_assoc, List.singleton_append]
  simp only [reduceCtorEq, if_false]
  cases handle_data_collection maxQuadlets fmt storePacket filename
      { st with
        isDataCollectionRunning := true
        stop_data_collection_flag := false
        sm_state := SM_START_DATA_COLLECTION
        sock_events := st.sock_events ++
          [SockEvent.transmit HostCmd.HOST_START_DATA_COLLECTION]
        dispatched := st.dispatched ++
          [SM_SEND_START_DATA_COLLECTIION_CMD_TO_PS, SM_START_DATA_COLLECTION] } polls with
  | done st1 => simp
  | hung st1 => rfl
  | unfinished st1 => rfl

theorem digitChar_plain (d : Nat) (hd : d < 10) :
    Nat.digitChar d ≠ ',' ∧ Nat.digitChar d ≠ '\n' := by
  interval_cases d <;> decide

theorem toDigitsCore_plain : ∀ (fuel n : Nat) (ds : List Char),
    (∀ c ∈ ds, c ≠ ',' ∧ c ≠ '\n') →
    ∀ c ∈ Nat.toDigitsCore 10 fuel n ds, c ≠ ',' ∧ c ≠ '\n' := by
  intro fuel
  induction fuel with
  | zero => intro n ds hds c hc; exact hds c hc
  | succ fuel ih =>
    intro n ds hds c hc
    have hcons : ∀ x ∈ Nat.digitChar (n % 10) :: ds, x ≠ ',' ∧ x ≠ '\n' := by
      intro x hx
      rcases List.mem_cons.mp hx with rfl | hx
      · exact digitChar_plain _ (Nat.mod_lt _ (by decide))
      · exact hds x hx
    simp only [Nat.toDigitsCore] at hc
    split at hc
    · exact hcons c hc
    · exact ih _ _ hcons c hc

/-- The decimal rendering of a natural number holds neither a comma nor a
newline. -/
theorem toString_nat_plain (n : Nat) :
    ∀ c ∈ (toString n).data, c ≠ ',' ∧ c ≠ '\n' := by
  intro c hc
  have : (toString n).data = Nat.toDigits 10 n := rfl
  rw [this] at hc
  exact toDigitsCore_plain _ _ [] (by simp) c hc

theorem splitAtCommas_ne_nil (l : List Char) : splitAtCommas l ≠ [] := by
  induction l with
  | nil => simp [splitAtCommas]
  | cons c cs ih =>
    rw [splitAtCommas]
    split
    · simp
    · split <;> simp

theorem splitAtCommas_comma (rest : List Char) :
    splitAtCommas (',' :: rest) = "" :: splitAtCommas rest := by
  rw [splitAtCommas]
  split
  · rename_i h; exact absurd h (splitAtCommas_ne_nil rest)
  · rename_i col cols h
    simp [h]

theorem splitAtCommas_char (c : Char) (rest : List Char) (hc : c ≠ ',') :
    splitAtCommas (c :: rest) =
      match splitAtCommas rest with
      | [] => [""]
      | col :: cols => String.mk (c :: col.data) :: cols := by
  rw [splitAtCommas]
  split <;> simp [hc]

/-- A column without comma in front of a comma is split off. -/
theorem splitAtCommas_column (col rest : List Char) (hcol : ∀ c ∈ col, c ≠ ',') :
    splitAtCommas (col ++ ',' :: rest) = String.mk col :: splitAtCommas rest := by
  induction col with
  | nil => exact splitAtCommas_comma rest
  | cons c col ih =>
    have hc : c ≠ ',' := hcol c (by simp)
    have hcol' : ∀ x ∈ col, x ≠ ',' := fun x hx => hcol x (by simp [hx])
    rw [List.cons_append, splitAtCommas_char c _ hc, ih hcol']

/-- A line without comma is one column. -/
theorem splitAtCommas_last (col : List Char) (hcol : ∀ c ∈ col, c ≠ ',') :
    splitAtCommas col = [String.mk col] := by
  induction col with
  | nil => rfl
  | cons c col ih =>
    have hc : c ≠ ',' := hcol c (by simp)
    have hcol' : ∀ x ∈ col, x ≠ ',' := fun x hx => hcol x (by simp [hx])
    rw [splitAtCommas_char c _ hc, ih hcol']

/-- Columns each followed by a comma are split off one by one. -/
theorem splitAtCommas_columns (col : Nat → List Char) (hcol : ∀ k, ∀ c ∈ col k, c ≠ ',')
    (rest : List Char) : ∀ l : List Nat,
    splitAtCommas (l.flatMap (fun k => col k ++ [',']) ++ rest) =
      l.map (fun k => String.mk (col k)) ++ splitAtCommas rest := by
  intro l
  induction l with
  | nil => rfl
  | cons k l ih =>
    simp only [List.flatMap_cons, List.append_assoc, List.singleton_append, List.map_cons,
      List.cons_append]
    rw [splitAtCommas_column _ _ (hcol k), List.nil_append, ih]

theorem put_open (f : OfStream) (text : String) (h : f.is_open = true) :
    (f.put text).is_open = true ∧
    (f.put text).content.data = f.content.data ++ text.data := by
  unfold OfStream.put
  rw [if_pos h]
  exact ⟨h, String.data_append _ _⟩

theorem forLoop_put_text (n : Nat) (body : Nat → OfStream → OfStream)
    (text : Nat → List Char)
    (hbody : ∀ k f, f.is_open = true →
      (body k f).is_open = true ∧ (body k f).content.data = f.content.data ++ text k)
    (f : OfStream) (hf : f.is_open = true) :
    (forLoop n body f).is_open = true ∧
    (forLoop n body f).content.data = f.content.data ++ (List.range n).flatMap text := by
  induction n with
  | zero => simp [forLoop_zero, hf]
  | succ n ih =>
    rw [forLoop_succ]
    obtain ⟨h1, h2⟩ := hbody n _ ih.1
    refine ⟨h1, ?_⟩
    rw [h2, ih.2, List.range_succ, List.flatMap_append]
    simp

/-- On an open file `write_csv_headers` appends `headerChars`. -/
theorem write_csv_headers_text (st : State) (hopen : st.myFile.is_open = true) :
    (write_csv_headers st).myFile.content.data =
      st.myFile.content.data ++
        headerChars st.dc_meta.num_encoders st.dc_meta.num_motors st.use_ps_io := by
  have named : ∀ (name : String) (k : Nat) (f : OfStream), f.is_open = true →
      (((f.put name).put (toString (k + 1))).put ",").is_open = true ∧
      (((f.put name).put (toString (k + 1))).put ",").content.data =
        f.content.data ++ (name.data ++ (toString (k + 1)).data ++ [',']) := by
    intro name k f hf
    obtain ⟨a1, a2⟩ := put_open f name hf
    obtain ⟨b1, b2⟩ := put_open _ (toString (k + 1)) a1
    obtain ⟨c1, c2⟩ := put_open _ "," b1
    refine ⟨c1, ?_⟩
    rw [c2, b2, a2]
    simp
  obtain ⟨h0o, h0⟩ := put_open st.myFile "TIMESTAMP," hopen
  obtain ⟨h1o, h1⟩ := forLoop_put_text st.dc_meta.num_encoders
    (fun k f => (f.put "ENCODER_POS_").put (toString (k + 1)) |>.put ",")
    (fun k => "ENCODER_POS_".data ++ (toString (k + 1)).data ++ [','])
    (fun k f hf => named "ENCODER_POS_" k f hf) _ h0o
  obtain ⟨h2o, h2⟩ := forLoop_put_text st.dc_meta.num_encoders
    (fun k f => (f.put "ENCODER_VEL_").put (toString (k + 1)) |>.put ",")
    (fun k => "ENCODER_VEL_".data ++ (toString (k + 1)).data ++ [','])
    (fun k f hf => named "ENCODER_VEL_" k f hf) _ h1o
  obtain ⟨h3o, h3⟩ := forLoop_put_text st.dc_meta.num_motors
    (fun k f => (f.put "MOTOR_CURRENT_").put (toString (k + 1)) |>.put ",")
    (fun k => "MOTOR_CURRENT_".data ++ (toString (k + 1)).data ++ [','])
    (fun k f hf => named "MOTOR_CURRENT_" k f hf) _ h2o
  obtain ⟨h4o, h4⟩ := forLoop_put_text st.dc_meta.num_motors
    (fun k f =>
      let g := (f.put "MOTOR_STATUS_").put (toString (k + 1))
      if k + 1 < st.dc_meta.num_motors then g.put "," else g)
    (fun k => "MOTOR_STATUS_".data ++ (toString (k + 1)).data ++
      (if k + 1 < st.dc_meta.num_motors then [','] else []))
    (fun k f hf => by
      obtain ⟨a1, a2⟩ := put_open f "MOTOR_STATUS_" hf
      obtain ⟨b1, b2⟩ := put_open _ (toString (k + 1)) a1
      obtain ⟨c1, c2⟩ := put_open _ "," b1
      simp only
      split
      · refine ⟨c1, ?_⟩
        rw [c2, b2, a2]
        simp
      · refine ⟨b1, ?_⟩
        rw [b2, a2]
        simp) _ h3o
  unfold write_csv_headers headerChars
  simp only
  cases hio : st.use_ps_io
  · simp only [Bool.false_eq_true, if_false]
    rw [(put_open _ "\n" h4o).2, h4, h3, h2, h1, h0]
    simp
  · simp only [if_true]
    obtain ⟨h5o, h5⟩ := put_open _ ",DIGITAL_IO,MIO_PINS" h4o
    rw [(put_open _ "\n" h5o).2, h5, h4, h3, h2, h1, h0]
    simp

theorem takeWhile_append_stop {α : Type} (p : α → Bool) (l : List α) (x : α)
    (rest : List α) (hl : ∀ c ∈ l, p c = true) (hx : p x = false) :
    (l ++ x :: rest).takeWhile p = l := by
  induction l with
  | nil => simp [List.takeWhile_cons, hx]
  | cons c l ih =>
    have hc : p c = true := hl c (by simp)
    have hl' : ∀ y ∈ l, p y = true := fun y hy => hl y (by simp [hy])
    simp [List.takeWhile_cons, hc, ih hl']

theorem mk_data_append (a b : String) : String.mk (a.data ++ b.data) = a ++ b := by
  apply String.ext
  simp [String.data_append]

/-- A column name followed by a decimal number holds neither a comma nor a
newline, when the name holds none. -/
theorem numbered_plain (name : String) (hname : ∀ c ∈ name.data, c ≠ ',' ∧ c ≠ '\n')
    (k : Nat) : ∀ c ∈ name.data ++ (toString (k + 1)).data, c ≠ ',' ∧ c ≠ '\n' := by
  intro c hc
  rcases List.mem_append.mp hc with h | h
  · exact hname c h
  · exact toString_nat_plain _ c h

theorem status_columns (name : List Char) (numMotors : Nat) :
    ∀ n, n ≤ numMotors →
      (List.range n).flatMap
          (fun k => name ++ (toString (k + 1)).data ++
            (if k + 1 < numMotors + 1 then [','] else [])) =
        (List.range n).flatMap (fun k => name ++ (toString (k + 1)).data ++ [',']) := by
  intro n
  induction n with
  | zero => intro _; rfl
  | succ n ih =>
    intro hn
    rw [List.range_succ, List.flatMap_append, List.flatMap_append, ih (by omega)]
    have : n < numMotors := by omega
    simp [this]

theorem headerChars_eq (numEncoders m : Nat) (io : Bool) :
    headerChars numEncoders (m + 1) io =
      ("TIMESTAMP".data ++ ',' ::
        ((List.range numEncoders).flatMap
            (fun k => ("ENCODER_POS_".data ++ (toString (k + 1)).data) ++ [',']) ++
          ((List.range numEncoders).flatMap
              (fun k => ("ENCODER_VEL_".data ++ (toString (k + 1)).data) ++ [',']) ++
            ((List.range (m + 1)).flatMap
                (fun k => ("MOTOR_CURRENT_".data ++ (toString (k + 1)).data) ++ [',']) ++
              ((List.range m).flatMap
                  (fun k => ("MOTOR_STATUS_".data ++ (toString (k + 1)).data) ++ [',']) ++
                (("MOTOR_STATUS_".data ++ (toString (m + 1)).data) ++
                  (if io then ',' :: ("DIGITAL_IO".data ++ ',' :: "MIO_PINS".data)
                    else []))))))) ++ ['\n'] := by
  unfold headerChars
  have hS := status_columns "MOTOR_STATUS_".data m m (Nat.le_refl m)
  have hT : "TIMESTAMP,".data = "TIMESTAMP".data ++ [','] := by decide
  have hIO : ",DIGITAL_IO,MIO_PINS".data =
      ',' :: ("DIGITAL_IO".data ++ ',' :: "MIO_PINS".data) := by decide
  rw [hT, hIO]
  simp only [List.range_succ, List.flatMap_append, hS]
  cases io <;> simp

theorem flatMap_plain (f : Nat → List Char) (P : Char → Prop)
    (hf : ∀ k, ∀ c ∈ f k, P c) (hcomma : P ',') (l : List Nat) :
    ∀ c ∈ l.flatMap (fun k => f k ++ [',']), P c := by
  intro c hc
  rw [List.mem_flatMap] at hc
  obtain ⟨k, -, hk⟩ := hc
  rcases List.mem_append.mp hk with h | h
  · exact hf k c h
  · rw [List.mem_singleton] at h
    rw [h]
    exact hcomma

/-- With at least one motor, the characters that `write_csv_headers` writes
are a line without newline, then a newline, and the line split at its commas
is the column list of the specification. -/
theorem headerChars_columns (numEncoders m : Nat) (io : Bool) :
    ∃ line : List Char,
      headerChars numEncoders (m + 1) io = line ++ ['\n'] ∧
      (∀ c ∈ line, c ≠ '\n') ∧
      splitAtCommas line = specHeaderColumns numEncoders (m + 1) io := by
  have hpos : ∀ c ∈ "ENCODER_POS_".data, c ≠ ',' ∧ c ≠ '\n' := by decide
  have hvel : ∀ c ∈ "ENCODER_VEL_".data, c ≠ ',' ∧ c ≠ '\n' := by decide
  have hcur : ∀ c ∈ "MOTOR_CURRENT_".data, c ≠ ',' ∧ c ≠ '\n' := by decide
  have hsta : ∀ c ∈ "MOTOR_STATUS_".data, c ≠ ',' ∧ c ≠ '\n' := by decide
  have hts : ∀ c ∈ "TIMESTAMP".data, c ≠ ',' ∧ c ≠ '\n' := by decide
  have hdio : ∀ c ∈ "DIGITAL_IO".data, c ≠ ',' ∧ c ≠ '\n' := by decide
  have hmio : ∀ c ∈ "MIO_PINS".data, c ≠ ',' ∧ c ≠ '\n' := by decide
  refine ⟨_, headerChars_eq numEncoders m io, ?_, ?_⟩
  · have hnl : (',' : Char) ≠ '\n' := by decide
    intro c hc
    rcases List.mem_append.mp hc with h | h
    · exact (hts c h).2
    rcases List.mem_cons.mp h with h | h
    · rw [h]; exact hnl
    rcases List.mem_append.mp h with h | h
    · exact flatMap_plain _ (fun c => c ≠ '\n')
        (fun k c hc => (numbered_plain "ENCODER_POS_" hpos k c hc).2) hnl _ c h
    rcases List.mem_append.mp h with h | h
    · exact flatMap_plain _ (fun c => c ≠ '\n')
        (fun k c hc => (numbered_plain "ENCODER_VEL_" hvel k c hc).2) hnl _ c h
    rcases List.mem_append.mp h with h | h
    · exact flatMap_plain _ (fun c => c ≠ '\n')
        (fun k c hc => (numbered_plain "MOTOR_CURRENT_" hcur k c hc).2) hnl _ c h
    rcases List.mem_append.mp h with h | h
    · exact flatMap_plain _ (fun c => c ≠ '\n')
        (fun k c hc => (numbered_plain "MOTOR_STATUS_" hsta k c hc).2) hnl _ c h
    rcases List.mem_append.mp h with h | h
    · exact (numbered_plain "MOTOR_STATUS_" hsta m c h).2
    cases io
    · simp at h
    · simp only [if_true] at h
      rcases List.mem_cons.mp h with h | h
      · rw [h]; exact hnl
      rcases List.mem_append.mp h with h | h
      · exact (hdio c h).2
      rcases List.mem_cons.mp h with h | h
      · rw [h]; exact hnl
      · exact (hmio c h).2
  · rw [splitAtCommas_column _ _ (fun c hc => (hts c hc).1),
      splitAtCommas_columns (fun k => "ENCODER_POS_".data ++ (toString (k + 1)).data)
        (fun k c hc => (numbered_plain "ENCODER_POS_" hpos k c hc).1),
      splitAtCommas_columns (fun k => "ENCODER_VEL_".data ++ (toString (k + 1)).data)
        (fun k c hc => (numbered_plain "ENCODER_VEL_" hvel k c hc).1),
      splitAtCommas_columns (fun k => "MOTOR_CURRENT_".data ++ (toString (k + 1)).data)
        (fun k c hc => (numbered_plain "MOTOR_CURRENT_" hcur k c hc).1),
      splitAtCommas_columns (fun k => "MOTOR_STATUS_".data ++ (toString (k + 1)).data)
        (fun k c hc => (numbered_plain "MOTOR_STATUS_" hsta k c hc).1)]
    have hlast : splitAtCommas
        (("MOTOR_STATUS_".data ++ (toString (m + 1)).data) ++
          (if io then ',' :: ("DIGITAL_IO".data ++ ',' :: "MIO_PINS".data) else [])) =
        ("MOTOR_STATUS_" ++ toString (m + 1)) ::
          (if io then ["DIGITAL_IO", "MIO_PINS"] else []) := by
      cases io
      · simp only [Bool.false_eq_true, if_false, List.append_nil]
        rw [splitAtCommas_last _
          (fun c hc => (numbered_plain "MOTOR_STATUS_" hsta m c hc).1), mk_data_append]
      · simp only [if_true]
        rw [splitAtCommas_column _ _
            (fun c hc => (numbered_plain "MOTOR_STATUS_" hsta m c hc).1),
          splitAtCommas_column _ _ (fun c hc => (hdio c hc).1),
          splitAtCommas_last _ (fun c hc => (hmio c hc).1), mk_data_append]
    rw [hlast]
    have e0 : String.mk "TIMESTAMP".data = "TIMESTAMP" := rfl
    have e1 : (fun k => String.mk ("ENCODER_POS_".data ++ (toString (k + 1)).data)) =
        (fun k => "ENCODER_POS_" ++ toString (k + 1)) :=
      funext (fun k => mk_data_append _ _)
    have e2 : (fun k => String.mk ("ENCODER_VEL_".data ++ (toString (k + 1)).data)) =
        (fun k => "ENCODER_VEL_" ++ toString (k + 1)) :=
      funext (fun k => mk_data_append _ _)
    have e3 : (fun k => String.mk ("MOTOR_CURRENT_".data ++ (toString (k + 1)).data)) =
        (fun k => "MOTOR_CURRENT_" ++ toString (k + 1)) :=
      funext (fun k => mk_data_append _ _)
    have e4 : (fun k => String.mk ("MOTOR_STATUS_".data ++ (toString (k + 1)).data)) =
        (fun k => "MOTOR_STATUS_" ++ toString (k + 1)) :=
      funext (fun k => mk_data_append _ _)
    have e5 : List.map (fun k => "MOTOR_STATUS_" ++ toString (k + 1)) (List.range (m + 1)) =
        List.map (fun k => "MOTOR_STATUS_" ++ toString (k + 1)) (List.range m) ++
          ["MOTOR_STATUS_" ++ toString (m + 1)] := by
      rw [List.range_succ, List.map_append]
      rfl
    rw [e0, e1, e2, e3, e4]
    unfold specHeaderColumns
    rw [e5]
    simp only [List.append_assoc, List.singleton_append, List.cons_append, List.nil_append]

theorem specHeaderColumns_length (numEncoders numMotors : Nat) (io : Bool) :
    (specHeaderColumns numEncoders numMotors io).length =
      1 + 2 * numEncoders + 2 * numMotors + (if io then 2 else 0) := by
  unfold specHeaderColumns
  cases io <;> simp <;> omega

theorem append_ne_empty (name text : String) (hname : name ≠ "") : name ++ text ≠ "" := by
  intro h
  have hd := congrArg String.data h
  rw [String.data_append] at hd
  have hnil : name.data = [] := (List.append_eq_nil.mp hd).1
  exact hname (String.ext hnil)

theorem specHeaderColumns_nonempty (numEncoders numMotors : Nat) (io : Bool) :
    ∀ col ∈ specHeaderColumns numEncoders numMotors io, col ≠ "" := by
  intro col hcol
  unfold specHeaderColumns at hcol
  simp only [List.mem_append, List.mem_map, List.mem_singleton] at hcol
  rcases hcol with ((((h | ⟨k, -, h⟩) | ⟨k, -, h⟩) | ⟨k, -, h⟩) | ⟨k, -, h⟩) | h
  · rw [h]; decide
  · rw [← h]; exact append_ne_empty _ _ (by decide)
  · rw [← h]; exact append_ne_empty _ _ (by decide)
  · rw [← h]; exact append_ne_empty _ _ (by decide)
  · rw [← h]; exact append_ne_empty _ _ (by decide)
  · cases io
    · simp at h
    · simp only [if_true, List.mem_cons, List.mem_singleton, List.not_mem_nil, or_false] at h
      rcases h with h | h <;> rw [h] <;> decide

/-- With at least one motor the header line that `write_csv_headers` writes
at the start of a file, split at its commas, is the column list of the
specification: `1 + 2 * num_encoders + 2 * num_motors` columns, two more with
IO on, none of them empty. -/
theorem write_csv_headers_with_motors (st : State) (hopen : st.myFile.is_open = true)
    (hempty : st.myFile.content = "") (hmotors : 1 ≤ st.dc_meta.num_motors) :
    splitAtCommas (firstLine (write_csv_headers st).myFile.content) =
      specHeaderColumns st.dc_meta.num_encoders st.dc_meta.num_motors st.use_ps_io ∧
    (specHeaderColumns st.dc_meta.num_encoders st.dc_meta.num_motors st.use_ps_io).length =
      1 + 2 * st.dc_meta.num_encoders + 2 * st.dc_meta.num_motors +
        (if st.use_ps_io then 2 else 0) ∧
    ∀ col ∈ specHeaderColumns st.dc_meta.num_encoders st.dc_meta.num_motors st.use_ps_io,
      col ≠ "" := by
  refine ⟨?_, specHeaderColumns_length _ _ _, specHeaderColumns_nonempty _ _ _⟩
  obtain ⟨m, hm⟩ : ∃ m, st.dc_meta.num_motors = m + 1 :=
    ⟨st.dc_meta.num_motors - 1, by omega⟩
  obtain ⟨line, hline, hnl, hsplit⟩ :=
    headerChars_columns st.dc_meta.num_encoders m st.use_ps_io
  have htext := write_csv_headers_text st hopen
  rw [hempty, hm, hline] at htext
  have hdata : (write_csv_headers st).myFile.content.data = line ++ ['\n'] := by
    rw [htext]; rfl
  unfold firstLine
  rw [hdata, takeWhile_append_stop _ line '\n' [] (by
    intro c hc
    have := hnl c hc
    simp [this]) (by decide), hm, hsplit]

/-! ### Array capacity -/

/-- The elements that `process_sample` assigns when the guard lets it decode:
the indices below `num_encoders` of the encoder arrays and the indices below
`num_motors` of the motor arrays. -/
theorem mem_process_sample_writes (maxQuadlets : Nat) (m : DataCollectionMeta) (i : Nat)
    (hg : ¬ (i + m.size_of_sample > maxQuadlets)) (a : SampleArray) (k : Nat) :
    (a, k) ∈ process_sample_writes maxQuadlets m i ↔
      ((a = SampleArray.encoder_position ∨ a = SampleArray.encoder_velocity) ∧
        k < m.num_encoders) ∨
      ((a = SampleArray.motor_current ∨ a = SampleArray.motor_status) ∧
        k < m.num_motors) := by
  simp only [process_sample_writes, hg, if_false, List.mem_append, List.mem_map,
    List.mem_range, List.mem_flatMap, List.mem_cons, Prod.mk.injEq, List.not_mem_nil,
    or_false]
  constructor
  · rintro ((⟨j, hj, rfl, rfl⟩ | ⟨j, hj, rfl, rfl⟩) | ⟨j, hj, (⟨rfl, rfl⟩ | ⟨rfl, rfl⟩)⟩)
    · exact Or.inl ⟨Or.inl rfl, hj⟩
    · exact Or.inl ⟨Or.inr rfl, hj⟩
    · exact Or.inr ⟨Or.inr rfl, hj⟩
    · exact Or.inr ⟨Or.inl rfl, hj⟩
  · rintro (⟨rfl | rfl, hk⟩ | ⟨rfl | rfl, hk⟩)
    · exact Or.inl (Or.inl ⟨k, hk, rfl, rfl⟩)
    · exact Or.inl (Or.inr ⟨k, hk, rfl, rfl⟩)
    · exact Or.inr ⟨k, hk, Or.inr ⟨rfl, rfl⟩⟩
    · exact Or.inr ⟨k, hk, Or.inl ⟨rfl, rfl⟩⟩

/-- `process_sample` leaves every array element outside `process_sample_writes`
as it was: the list holds every element that is assigned. -/
theorem process_sample_writes_sound (maxQuadlets : Nat) (m : DataCollectionMeta)
    (io : Bool) (w : Nat → Nat) (i : Nat) (ps0 : ProcessedSample) (k : Nat) :
    ((SampleArray.encoder_position, k) ∉ process_sample_writes maxQuadlets m i →
      (process_sample maxQuadlets m io w i ps0).1.encoder_position k =
        ps0.encoder_position k) ∧
    ((SampleArray.encoder_velocity, k) ∉ process_sample_writes maxQuadlets m i →
      (process_sample maxQuadlets m io w i ps0).1.encoder_velocity k =
        ps0.encoder_velocity k) ∧
    ((SampleArray.motor_current, k) ∉ process_sample_writes maxQuadlets m i →
      (process_sample maxQuadlets m io w i ps0).1.motor_current k =
        ps0.motor_current k) ∧
    ((SampleArray.motor_status, k) ∉ process_sample_writes maxQuadlets m i →
      (process_sample maxQuadlets m io w i ps0).1.motor_status k =
        ps0.motor_status k) := by
  by_cases hg : i + m.size_of_sample > maxQuadlets
  · rw [process_sample_overrun_skips_aux maxQuadlets m io w i ps0 hg]
    exact ⟨fun _ => rfl, fun _ => rfl, fun _ => rfl, fun _ => rfl⟩
  · have hps : (process_sample maxQuadlets m io w i ps0).1 =
        (decode_sample m io w { ps := ps0, idx := i, reads := [] }).ps := by
      simp [process_sample, hg]
    rw [hps, decode_sample_ps]
    refine ⟨?_, ?_, ?_, ?_⟩
    · intro h
      have hk : ¬ k < m.num_encoders := fun hk =>
        h ((mem_process_sample_writes maxQuadlets m i hg _ _).mpr (Or.inl ⟨Or.inl rfl, hk⟩))
      simp [hk]
    · intro h
      have hk : ¬ k < m.num_encoders := fun hk =>
        h ((mem_process_sample_writes maxQuadlets m i hg _ _).mpr (Or.inl ⟨Or.inr rfl, hk⟩))
      simp [hk]
    · intro h
      have hk : ¬ k < m.num_motors := fun hk =>
        h ((mem_process_sample_writes maxQuadlets m i hg _ _).mpr (Or.inr ⟨Or.inl rfl, hk⟩))
      simp [hk]
    · intro h
      have hk : ¬ k < m.num_motors := fun hk =>
        h ((mem_process_sample_writes maxQuadlets m i hg _ _).mpr (Or.inr ⟨Or.inr rfl, hk⟩))
      simp [hk]


/-- `init` returns `true` with the metadata as received whenever the stored
hardware version is accepted and the next payload is the readiness string:
no other field of the metadata is tested. -/
theorem init_accepted_then_ready
    (storeMeta : List Nat → DataCollectionMeta → DataCollectionMeta)
    ( usePSIO useSampleRate : Bool) (sample_rate : Int) (st : State)
    (payload ready : List Nat)
    (hacc : acceptedHwvers (storeMeta payload st.dc_meta).hwvers = true)
    (hready : cstr ready = literalBytes "ZYNQ: READY FOR DATA COLLECTION") :
    ∃ st', init storeMeta true usePSIO useSampleRate sample_rate st
        [UdpRecv.data payload, UdpRecv.data ready] = .returned true st' ∧
      st'.dc_meta = storeMeta payload st.dc_meta := by
  have hentry_sm : (init_entry usePSIO useSampleRate st).sm_state =
      SM_SEND_READY_STATE_TO_PS := by
    unfold init_entry; cases useSampleRate <;> rfl
  have hentry_meta : (init_entry usePSIO useSampleRate st).dc_meta = st.dc_meta := by
    unfold init_entry; cases useSampleRate <;> rfl
  obtain ⟨hmeta, -, -, -⟩ :=
    send_ready_frame sample_rate (init_entry usePSIO useSampleRate st)
  have hcmp := (strcmp_ready_iff ready).mpr hready
  refine ⟨{ State.transmit
      { send_ready sample_rate (init_entry usePSIO useSampleRate st) with
        dc_meta := storeMeta payload st.dc_meta
        sm_state := SM_SEND_METADATA_RECV } HostCmd.HOST_RECVD_METADATA with
      sm_state := SM_SEND_START_DATA_COLLECTIION_CMD_TO_PS }, ?_, rfl⟩
  simp only [init, Bool.not_true, Bool.false_eq_true, if_false, List.length_cons,
    List.length_nil]
  rw [init_loop_succ]
  simp only [init_step, hentry_sm]
  rw [init_loop_succ]
  simp only [init_step, hmeta, hentry_meta, hacc, if_true]
  rw [init_loop_succ]
  simp only [init_step]
  rw [init_loop_succ]
  simp only [init_step, hcmp, if_true]

/-- C11 (amended): `init` tests only the hardware version of the metadata it
stores.  When the metadata stored by a successful `init` do satisfy
`num_encoders ≤ MAX_NUM_ENCODERS` and `num_motors ≤ MAX_NUM_MOTORS`, every
index at which `process_sample` assigns `encoder_position`,
`encoder_velocity`, `motor_current` or `motor_status` is below the capacity of
that array, and the elements at or beyond the capacities keep their values. -/
theorem process_sample_writes_below_capacity
    (storeMeta : List Nat → DataCollectionMeta → DataCollectionMeta)
    (udp_init_ok usePSIO useSampleRate : Bool) (sample_rate : Int) (st st' : State)
    (polls : List UdpRecv) (maxNumEncoders maxNumMotors maxQuadlets start_idx : Nat)
    (hinit : init storeMeta udp_init_ok usePSIO useSampleRate sample_rate st polls =
      .returned true st')
    (hE : st'.dc_meta.num_encoders ≤ maxNumEncoders)
    (hM : st'.dc_meta.num_motors ≤ maxNumMotors) :
    acceptedHwvers st'.dc_meta.hwvers = true ∧
    (∀ a k, (a, k) ∈ process_sample_writes maxQuadlets st'.dc_meta start_idx →
      k < a.capacity maxNumEncoders maxNumMotors) ∧
    (∀ (io : Bool) (w : Nat → Nat) (ps0 : ProcessedSample) (k : Nat),
      (maxNumEncoders ≤ k →
        (process_sample maxQuadlets st'.dc_meta io w start_idx ps0).1.encoder_position k =
          ps0.encoder_position k ∧
        (process_sample maxQuadlets st'.dc_meta io w start_idx ps0).1.encoder_velocity k =
          ps0.encoder_velocity k) ∧
      (maxNumMotors ≤ k →
        (process_sample maxQuadlets st'.dc_meta io w start_idx ps0).1.motor_current k =
          ps0.motor_current k ∧
        (process_sample maxQuadlets st'.dc_meta io w start_idx ps0).1.motor_status k =
          ps0.motor_status k)) := by
  have hbelow : ∀ a k, (a, k) ∈ process_sample_writes maxQuadlets st'.dc_meta start_idx →
      k < a.capacity maxNumEncoders maxNumMotors := by
    intro a k hmem
    by_cases hg : start_idx + st'.dc_meta.size_of_sample > maxQuadlets
    · simp [process_sample_writes, hg] at hmem
    · rw [mem_process_sample_writes maxQuadlets _ _ hg] at hmem
      rcases hmem with ⟨rfl | rfl, hk⟩ | ⟨rfl | rfl, hk⟩ <;>
        simp only [SampleArray.capacity] <;> omega
  refine ⟨?_, hbelow, ?_⟩
  · cases udp_init_ok
    · simp [init] at hinit
    · simp only [init, Bool.not_true, Bool.false_eq_true, if_false] at hinit
      refine init_loop_true_accepted storeMeta sample_rate _ _ _ _ st' ?_ hinit
      intro hh
      have hentry_sm : (init_entry usePSIO useSampleRate st).sm_state =
          SM_SEND_READY_STATE_TO_PS := by
        unfold init_entry; cases useSampleRate <;> rfl
      rw [hentry_sm] at hh
      simp at hh
  · intro io w ps0 k
    obtain ⟨h1, h2, h3, h4⟩ :=
      process_sample_writes_sound maxQuadlets st'.dc_meta io w start_idx ps0 k
    constructor
    · intro hk
      constructor
      · apply h1
        intro hmem
        have := hbelow _ _ hmem
        simp only [SampleArray.capacity] at this
        omega
      · apply h2
        intro hmem
        have := hbelow _ _ hmem
        simp only [SampleArray.capacity] at this
        omega
    · intro hk
      constructor
      · apply h3
        intro hmem
        have := hbelow _ _ hmem
        simp only [SampleArray.capacity] at this
        omega
      · apply h4
        intro hmem
        have := hbelow _ _ hmem
        simp only [SampleArray.capacity] at this
        omega

theorem process_sample_writes_below_capacity_witness :
    ∃ st', init fieldLayout true false false 0
        (exampleState scenarioMeta false (fun _ => 0))
        [UdpRecv.data (countsPayload 4 3), UdpRecv.data readyPayload] =
          .returned true st' ∧
      st'.dc_meta.num_encoders ≤ 8 ∧ st'.dc_meta.num_motors ≤ 10 ∧
      (acceptedHwvers st'.dc_meta.hwvers = true ∧
      (∀ a k, (a, k) ∈ process_sample_writes 360 st'.dc_meta 0 →
        k < a.capacity 8 10) ∧
      (∀ (io : Bool) (w : Nat → Nat) (ps0 : ProcessedSample) (k : Nat),
        (8 ≤ k →
          (process_sample 360 st'.dc_meta io w 0 ps0).1.encoder_position k =
            ps0.encoder_position k ∧
          (process_sample 360 st'.dc_meta io w 0 ps0).1.encoder_velocity k =
            ps0.encoder_velocity k) ∧
        (10 ≤ k →
          (process_sample 360 st'.dc_meta io w 0 ps0).1.motor_current k =
            ps0.motor_current k ∧
          (process_sample 360 st'.dc_meta io w 0 ps0).1.motor_status k =
            ps0.motor_status k))) :=
  match init_accepted_then_ready fieldLayout false false 0
      (exampleState scenarioMeta false (fun _ => 0)) (countsPayload 4 3) readyPayload
      (by decide) (by decide) with
  | ⟨st', h, hmeta⟩ =>
    ⟨st', h, by rw [hmeta]; decide, by rw [hmeta]; decide,
      process_sample_writes_below_capacity fieldLayout true false false 0
        (exampleState scenarioMeta false (fun _ => 0)) st'
        [UdpRecv.data (countsPayload 4 3), UdpRecv.data readyPayload] 8 10 360 0 h
        (by rw [hmeta]; decide) (by rw [hmeta]; decide)⟩

/-- A payload of `countsPayload` carries the accepted hardware version `QLA1`,
whatever the counts. -/
theorem countsPayload_accepted (numEncoders numMotors : Nat) (old : DataCollectionMeta) :
    acceptedHwvers (fieldLayout (countsPayload numEncoders numMotors) old).hwvers = true :=
  (acceptedHwvers_iff _).mpr (Or.inl rfl)

/-- C11 fails as stated.  `init` returns `true` on metadata with the hardware
version `QLA1` and any numbers of encoders and motors, so no values of
`MAX_NUM_ENCODERS` and `MAX_NUM_MOTORS` bound the stored counts; and with a
sample size that passes the guard of `process_sample`, the write list holds
`encoder_position[MAX_NUM_ENCODERS]`, an index that is not below the
capacity. -/
theorem init_accepts_counts_beyond_capacity :
    (¬ ∃ maxNumEncoders maxNumMotors : Nat,
      ∀ (polls : List UdpRecv) (st' : State),
        init fieldLayout true false false 0
          (exampleState scenarioMeta false (fun _ => 0)) polls = .returned true st' →
        st'.dc_meta.num_encoders ≤ maxNumEncoders ∧
          st'.dc_meta.num_motors ≤ maxNumMotors) ∧
    (¬ ∃ maxNumEncoders maxNumMotors maxQuadlets : Nat, 5 ≤ maxQuadlets ∧
      ∀ (polls : List UdpRecv) (st' : State) (a : SampleArray) (k : Nat),
        init fieldLayout true false false 0
          (exampleState scenarioMeta false (fun _ => 0)) polls = .returned true st' →
        (a, k) ∈ process_sample_writes maxQuadlets st'.dc_meta 0 →
        k < a.capacity maxNumEncoders maxNumMotors) := by
  constructor
  · rintro ⟨maxE, maxM, h⟩
    obtain ⟨st', hinit, hmeta⟩ := init_accepted_then_ready fieldLayout false false 0
      (exampleState scenarioMeta false (fun _ => 0)) (countsPayload (maxE + 1) (maxM + 1))
      readyPayload (countsPayload_accepted _ _ _) (by decide)
    have := (h _ st' hinit).1
    rw [hmeta] at this
    simp [fieldLayout, countsPayload] at this
  · rintro ⟨maxE, maxM, maxQ, hQ, h⟩
    obtain ⟨st', hinit, hmeta⟩ := init_accepted_then_ready fieldLayout false false 0
      (exampleState scenarioMeta false (fun _ => 0)) (countsPayload (maxE + 1) (maxM + 1))
      readyPayload (countsPayload_accepted _ _ _) (by decide)
    have hsz : st'.dc_meta.size_of_sample = 5 := by
      rw [hmeta]; simp [fieldLayout, countsPayload]
    have hE : st'.dc_meta.num_encoders = maxE + 1 := by
      rw [hmeta]; simp [fieldLayout, countsPayload]
    have hg : ¬ (0 + st'.dc_meta.size_of_sample > maxQ) := by omega
    have hmem : (SampleArray.encoder_position, maxE) ∈
        process_sample_writes maxQ st'.dc_meta 0 :=
      (mem_process_sample_writes maxQ _ 0 hg _ _).mpr (Or.inl ⟨Or.inl rfl, by omega⟩)
    have := h _ st' _ _ hinit hmem
    simp [SampleArray.capacity] at this


/-! ### The ready commands -/

/-- The first iteration of the loop of `init`: the state
`SM_SEND_READY_STATE_TO_PS` runs `send_ready`, consumes no poll outcome and
sets `SM_RECV_DATA_COLLECTION_META_DATA`. -/
theorem init_step_send_ready
    (storeMeta : List Nat → DataCollectionMeta → DataCollectionMeta)
    ( usePSIO useSampleRate : Bool) (sample_rate : Int) (st : State)
    (buf : List Nat) (polls : List UdpRecv) :
    init_step storeMeta sample_rate (init_entry usePSIO useSampleRate st) buf polls =
      .running { send_ready sample_rate (init_entry usePSIO useSampleRate st) with
        sm_state := SM_RECV_DATA_COLLECTION_META_DATA } buf polls := by
  have hentry_sm : (init_entry usePSIO useSampleRate st).sm_state =
      SM_SEND_READY_STATE_TO_PS := by
    unfold init_entry; cases useSampleRate <;> rfl
  simp only [init_step, hentry_sm]

/-- The socket events of `send_ready` after `init_entry`: the flag
`use_sample_rate` in effect is the argument or the value the member already
had. -/
theorem send_ready_entry_events ( usePSIO useSampleRate : Bool) (sample_rate : Int)
    (st : State) :
    (send_ready sample_rate (init_entry usePSIO useSampleRate st)).sock_events =
      st.sock_events ++
        readyTransmissions sample_rate usePSIO (useSampleRate || st.use_sample_rate) := by
  unfold send_ready init_entry
  cases usePSIO <;> cases useSampleRate <;> cases hsr : st.use_sample_rate <;>
    simp [State.transmit, readyTransmissions, hsr]

/-- C12 (amended): in the state `SM_SEND_READY_STATE_TO_PS`, `init` transmits
the plain ready command when neither option is in effect, the with-IO command
when only IO is, the with-sample-rate command followed by the rate when only
the sample rate is, and the with-IO command followed by the with-sample-rate
command and the rate when both are: one ready command unless both options are
in effect, then two.  The sample-rate flag in effect is the argument or the
value the member had before the call.  The state consumes no poll outcome
and always sets `SM_RECV_DATA_COLLECTION_META_DATA`. -/
theorem init_send_ready_transmissions
    (storeMeta : List Nat → DataCollectionMeta → DataCollectionMeta)
    ( usePSIO useSampleRate : Bool) (sample_rate : Int) (st : State)
    (buf : List Nat) (polls : List UdpRecv) :
    ∃ st1,
      init_step storeMeta sample_rate (init_entry usePSIO useSampleRate st) buf polls =
        .running st1 buf polls ∧
      st1.sm_state = SM_RECV_DATA_COLLECTION_META_DATA ∧
      st1.sock_events = st.sock_events ++
        readyTransmissions sample_rate usePSIO (useSampleRate || st.use_sample_rate) ∧
      readyVariantCount st1.sock_events = readyVariantCount st.sock_events +
        (if usePSIO && (useSampleRate || st.use_sample_rate) then 2 else 1) ∧
      (SockEvent.transmit (HostCmd.SAMPLE_RATE_VALUE sample_rate) ∈
          readyTransmissions sample_rate usePSIO (useSampleRate || st.use_sample_rate) ↔
        SockEvent.transmit HostCmd.HOST_READY_CMD_W_SAMPLE_RATE ∈
          readyTransmissions sample_rate usePSIO (useSampleRate || st.use_sample_rate)) := by
  refine ⟨_, init_step_send_ready storeMeta usePSIO useSampleRate sample_rate st buf polls,
    rfl, send_ready_entry_events usePSIO useSampleRate sample_rate st, ?_, ?_⟩
  · show readyVariantCount
      (send_ready sample_rate (init_entry usePSIO useSampleRate st)).sock_events = _
    rw [send_ready_entry_events]
    unfold readyVariantCount
    rw [List.countP_append]
    cases usePSIO <;> cases (useSampleRate || st.use_sample_rate) <;>
      simp [readyTransmissions, SockEvent.isReadyVariant, List.countP_cons]
  · cases usePSIO <;> cases (useSampleRate || st.use_sample_rate) <;>
      simp [readyTransmissions]

/-- C12 fails as stated.  Called with both options on a fresh session, the
state `SM_SEND_READY_STATE_TO_PS` transmits `HOST_READY_CMD_W_PS_IO` and then
`HOST_READY_CMD_W_SAMPLE_RATE` with the rate: two ready commands, not one. -/
theorem init_send_ready_both_options_sends_two :
    ∃ st1,
      init_step fieldLayout 1000
        (init_entry true true (exampleState scenarioMeta false (fun _ => 0)))
        (List.replicate 100 0) [] = .running st1 (List.replicate 100 0) [] ∧
      st1.sock_events = [SockEvent.transmit HostCmd.HOST_READY_CMD_W_PS_IO,
        SockEvent.transmit HostCmd.HOST_READY_CMD_W_SAMPLE_RATE,
        SockEvent.transmit (HostCmd.SAMPLE_RATE_VALUE 1000)] ∧
      readyVariantCount st1.sock_events = 2 ∧
      ¬ (readyVariantCount st1.sock_events = 1) :=
  ⟨_, init_step_send_ready fieldLayout true true 1000
      (exampleState scenarioMeta false (fun _ => 0)) (List.replicate 100 0) [],
    by decide, by decide, by decide⟩


/-! ### The dispatch loop of `collect_data` -/

/-- The drain loop of `start` stores each received payload in `data_packet`
and changes nothing else. -/
theorem start_drain_loop (storePacket : Nat → List Nat → (Nat → Nat) → (Nat → Nat)) :
    ∀ (drained : List (List Nat)) (st : State),
      drained.foldl
        (fun acc payload =>
          { acc with
            data_packet := storePacket acc.dc_meta.data_packet_size payload acc.data_packet })
        st =
      { st with
        data_packet := drained.foldl
          (fun w payload => storePacket st.dc_meta.data_packet_size payload w)
          st.data_packet } := by
  intro drained
  induction drained with
  | nil => intro st; rfl
  | cons p rest ih =>
    intro st
    simp only [List.foldl_cons]
    rw [ih]

/-- C14: `start` returns `true` for both outcomes of `pthread_create`.  When
the creation fails, the statement `return 1` gives `true` and the session
state is untouched: nothing is received from the transport and no worker has
set `isDataCollectionRunning`.  When it succeeds, the drain loop stores the
buffered payloads in `data_packet` and `start` returns `true`.  The two
results are equal, so the caller's test of the result does not tell the
outcomes apart. -/
theorem start_returns_true_without_worker
    (storePacket : Nat → List Nat → (Nat → Nat) → (Nat → Nat))
    (drained : List (List Nat)) (st : State) :
    intToBool 1 = true ∧
    start storePacket false drained st = (intToBool 1, st) ∧
    start storePacket true drained st =
      (true, { st with
        data_packet := drained.foldl
          (fun w payload => storePacket st.dc_meta.data_packet_size payload w)
          st.data_packet }) ∧
    (start storePacket false drained st).1 = (start storePacket true drained st).1 ∧
    (∀ pthread_ok, (start storePacket pthread_ok drained st).1 = true) := by
  have hfail : start storePacket false drained st = (intToBool 1, st) := rfl
  have hok : start storePacket true drained st =
      (true, { st with
        data_packet := drained.foldl
          (fun w payload => storePacket st.dc_meta.data_packet_size payload w)
          st.data_packet }) := by
    simp only [start, Bool.not_true, Bool.false_eq_true, if_false]
    rw [start_drain_loop]
  refine ⟨rfl, hfail, hok, ?_, ?_⟩
  · rw [hfail, hok]
    rfl
  · intro pthread_ok
    cases pthread_ok
    · rw [hfail]; rfl
    · rw [hok]


/-! ### Rows and header -/

/-- C7 fails as stated.  A payload that is not the readiness string, but holds
it followed by a NUL and further bytes, is accepted: `strcmp` compares the
bytes before the first NUL only.  `init` returns `true`, the socket stays
open and nothing is closed. -/
theorem init_accepts_ready_with_trailing_bytes :
    readyWithTrailingBytes ≠ literalBytes "ZYNQ: READY FOR DATA COLLECTION" ∧
    readyWithTrailingBytes ≠ literalBytes "ZYNQ: READY FOR DATA COLLECTION" ++ [0] ∧
    readyWithTrailingBytes.length = 36 ∧
    (match init_loop fieldLayout 0 2 waitingState (List.replicate 100 0)
        [UdpRecv.data readyWithTrailingBytes] with
      | .returned ret st' => (ret, st'.sock_open, closeCount st'.sock_events)
      | _ => (false, false, 0)) = (true, true, 0) := by
  refine ⟨by decide, by decide, by decide, by decide⟩

/-- The worker of a capture started in an idle state `st` calls
`handle_data_collection` in the state `nextCaptureEntry st`. -/
theorem collect_data_nextCaptureEntry (maxQuadlets : Nat) (fmt : FloatFormat)
    (storePacket : Nat → List Nat → (Nat → Nat) → (Nat → Nat)) (filename : String)
    (st : State) (polls : List UdpRecv) (hidle : st.isDataCollectionRunning = false) :
    collect_data maxQuadlets fmt storePacket filename st polls =
      match handle_data_collection maxQuadlets fmt storePacket filename
        (nextCaptureEntry st) polls with
      | .done st1 => .done { st1 with sm_state := SM_EXIT }
      | .hung st1 => .hung st1
      | .unfinished st1 => .unfinished st1 :=
  collect_data_eq maxQuadlets fmt storePacket filename st polls hidle

end DataCollection
